import Mathlib

/-!
Verification of the SSDP weekly release-notes pipeline (extract.py / summarize.py).

The Python sources are shallowly embedded: pure functions become Lean
functions over `String` / `List Char`, dict-shaped JSON values become
association lists or records, and the handful of small regular expressions
used by the code are translated into explicit, executable character-level
matchers that follow the backtracking semantics of Python's `re` on those
concrete patterns.
-/

namespace SSDP

/-! ## Basic character / string helpers mirroring Python semantics -/

/-- Python `\d` restricted to ASCII digits (the only digits the pipeline sees). -/
def isPyDigit (c : Char) : Bool := '0' ≤ c && c ≤ '9'

/-- Python `\s` / `str.strip` whitespace (ASCII portion). -/
def isPySpace (c : Char) : Bool :=
  c = ' ' || c = '\t' || c = '\n' || c = '\r' || c = '\x0b' || c = '\x0c'

/-- `str.strip()` on a character list. -/
def pyStripChars (cs : List Char) : List Char :=
  ((cs.dropWhile isPySpace).reverse.dropWhile isPySpace).reverse

/-- `str.strip()`. -/
def pyStrip (s : String) : String := ⟨pyStripChars s.data⟩

/-- `int(...)` on a run of ASCII digits. -/
def natOfDigits (cs : List Char) : Nat :=
  cs.foldl (fun n c => n * 10 + (c.toNat - '0'.toNat)) 0

/-- Python string `<=`: lexicographic comparison by code point. -/
def listLexLe : List Char → List Char → Bool
  | [], _ => true
  | _ :: _, [] => false
  | a :: as, b :: bs => a < b || (a == b && listLexLe as bs)

/-- Python `a <= b` on strings. -/
def pyStrLe (a b : String) : Bool := listLexLe a.data b.data

lemma listLexLe_refl (l : List Char) : listLexLe l l := by
  induction l with
  | nil => rfl
  | cons a as ih => simp [listLexLe, ih]

lemma listLexLe_trans : ∀ {a b c : List Char},
    listLexLe a b → listLexLe b c → listLexLe a c
  | [], _, _, _, _ => rfl
  | _ :: _, [], _, h, _ => by simp [listLexLe] at h
  | _ :: _, _ :: _, [], _, h => by simp [listLexLe] at h
  | a :: as, b :: bs, c :: cs, hab, hbc => by
    simp only [listLexLe, Bool.or_eq_true, Bool.and_eq_true, decide_eq_true_eq,
      beq_iff_eq] at hab hbc ⊢
    rcases hab with hab | ⟨rfl, hab⟩
    · rcases hbc with hbc | ⟨rfl, hbc⟩
      · exact Or.inl (lt_trans hab hbc)
      · exact Or.inl hab
    · rcases hbc with hbc | ⟨rfl, hbc⟩
      · exact Or.inl hbc
      · exact Or.inr ⟨rfl, listLexLe_trans hab hbc⟩

lemma listLexLe_total : ∀ (a b : List Char), listLexLe a b ∨ listLexLe b a
  | [], _ => Or.inl rfl
  | _ :: _, [] => Or.inr rfl
  | a :: as, b :: bs => by
    simp only [listLexLe, Bool.or_eq_true, Bool.and_eq_true, decide_eq_true_eq,
      beq_iff_eq]
    rcases lt_trichotomy a b with h | rfl | h
    · exact Or.inl (Or.inl h)
    · rcases listLexLe_total as bs with h | h
      · exact Or.inl (Or.inr ⟨rfl, h⟩)
      · exact Or.inr (Or.inr ⟨rfl, h⟩)
    · exact Or.inr (Or.inl h)

lemma listLexLe_antisymm : ∀ {a b : List Char},
    listLexLe a b → listLexLe b a → a = b
  | [], [], _, _ => rfl
  | [], _ :: _, _, h => by simp [listLexLe] at h
  | _ :: _, [], h, _ => by simp [listLexLe] at h
  | a :: as, b :: bs, hab, hba => by
    simp only [listLexLe, Bool.or_eq_true, Bool.and_eq_true, decide_eq_true_eq,
      beq_iff_eq] at hab hba
    rcases hab with hab | ⟨rfl, hab⟩
    · rcases hba with hba | ⟨rfl, hba⟩
      · exact absurd hba (not_lt_of_lt hab)
      · exact absurd hab (lt_irrefl _)
    · rcases hba with hba | ⟨-, hba⟩
      · exact absurd hba (lt_irrefl _)
      · exact congrArg (a :: ·) (listLexLe_antisymm hab hba)

/-! ## `parse_week_arg` (extract.py lines 69-88, summarize.py lines 39-49) -/

/-- Characters accepted by the `[-_ ]*` separator run in the week regexes. -/
def isSepChar (c : Char) : Bool := c = '-' || c = '_' || c = ' '

/-- Match the tail `W?(?P<week>\d{1,2})$` of both week regexes.
The optional `W` is only the uppercase letter (the patterns are compiled
without `re.IGNORECASE`); backtracking is trivial because a leading `W`
can never be matched by `\d`. -/
def weekDigits (rest : List Char) : Option Nat :=
  if rest ≠ [] ∧ rest.length ≤ 2 ∧ (∀ c ∈ rest, isPyDigit c) then
    some (natOfDigits rest)
  else
    none

def matchWeekTail (cs : List Char) : Option Nat :=
  weekDigits (if cs.head? = some 'W' then cs.tail else cs)

/-- Match `^(?P<year>\d{4})[-_ ]*W?(?P<week>\d{1,2})$`.
`[-_ ]*` is greedy but deterministic: none of `-`, `_`, ` ` can be matched
by the following `W?` or `\d`, so it always consumes the maximal run. -/
def matchYearWeek (cs : List Char) : Option (Nat × Nat) :=
  match cs with
  | a :: b :: c :: d :: rest =>
    if isPyDigit a ∧ isPyDigit b ∧ isPyDigit c ∧ isPyDigit d then
      match matchWeekTail (rest.dropWhile isSepChar) with
      | some w => some (natOfDigits [a, b, c, d], w)
      | none => none
    else none
  | _ => none

/-- `parse_week_arg(raw)`: parse a CLI week argument, returning
`(year?, week?)`.  Mirrors the identical function in `extract.py` and
`summarize.py`. -/
def parse_week_arg (raw : String) : Option Nat × Option Nat :=
  if raw = "" then (none, none)
  else
    let cs := pyStripChars raw.data
    match matchYearWeek cs with
    | some (y, w) => (some y, some w)
    | none =>
      match matchWeekTail cs with
      | some w => (none, some w)
      | none => (none, none)

/-! Declarative grammar for the two week-argument regexes, written from the
spec side so the parser can be compared against it. -/

/-- A (possibly empty) run of the separator characters `-`, `_`, ` `. -/
def SepRun (sep : List Char) : Prop := ∀ c ∈ sep, isSepChar c

/-- The optional uppercase `W` tag. -/
def WTag (t : List Char) : Prop := t = [] ∨ t = ['W']

/-- One or two ASCII digits. -/
def DigitRun12 (d : List Char) : Prop :=
  d ≠ [] ∧ d.length ≤ 2 ∧ ∀ c ∈ d, isPyDigit c

/-- The stripped argument is `\d{4}[-_ ]*W?\d{1,2}` yielding year `y`, week `w`. -/
def YearWeekForm (cs : List Char) (y w : Nat) : Prop :=
  ∃ yd sep t wd, cs = yd ++ sep ++ t ++ wd ∧
    yd.length = 4 ∧ (∀ c ∈ yd, isPyDigit c) ∧
    SepRun sep ∧ WTag t ∧ DigitRun12 wd ∧
    y = natOfDigits yd ∧ w = natOfDigits wd

/-- The stripped argument is `W?\d{1,2}` yielding week `w`. -/
def BareWeekForm (cs : List Char) (w : Nat) : Prop :=
  ∃ t wd, cs = t ++ wd ∧ WTag t ∧ DigitRun12 wd ∧ w = natOfDigits wd

lemma dropWhile_append_all {p : Char → Bool} {l1 l2 : List Char}
    (h : ∀ c ∈ l1, p c) : (l1 ++ l2).dropWhile p = l2.dropWhile p := by
  induction l1 with
  | nil => rfl
  | cons a l ih =>
    have ha : p a := h a (by simp)
    simp only [List.cons_append, List.dropWhile_cons, ha, if_true]
    exact ih fun c hc => h c (by simp [hc])

lemma dropWhile_cons_neg {p : Char → Bool} {a : Char} {l : List Char}
    (h : ¬ p a) : (a :: l).dropWhile p = a :: l := by
  simp [List.dropWhile_cons, h]

lemma not_isSepChar_of_digit {c : Char} (h : isPyDigit c) : ¬ isSepChar c := by
  intro hs
  simp only [isSepChar, Bool.or_eq_true, decide_eq_true_eq] at hs
  rcases hs with (rfl | rfl) | rfl <;> exact absurd h (by decide)

lemma digit_ne_W {c : Char} (h : isPyDigit c) : c ≠ 'W' := by
  intro hW
  subst hW
  exact absurd h (by decide)

lemma weekDigits_eq_some_iff (rest : List Char) (w : Nat) :
    weekDigits rest = some w ↔ DigitRun12 rest ∧ w = natOfDigits rest := by
  unfold weekDigits DigitRun12
  split_ifs with hc
  · simp only [Option.some.injEq]
    exact ⟨fun h => ⟨hc, h.symm⟩, fun h => h.2 ▸ rfl⟩
  · exact ⟨fun h => absurd h (by simp), fun h => absurd h.1 hc⟩

lemma matchWeekTail_iff (cs : List Char) (w : Nat) :
    matchWeekTail cs = some w ↔
      ∃ t wd, cs = t ++ wd ∧ WTag t ∧ DigitRun12 wd ∧ w = natOfDigits wd := by
  constructor
  · intro h
    unfold matchWeekTail at h
    cases cs with
    | nil =>
      rw [if_neg (by simp)] at h
      obtain ⟨hd, -⟩ := (weekDigits_eq_some_iff _ _).1 h
      exact absurd rfl hd.1
    | cons a tl =>
      by_cases ha : a = 'W'
      · subst ha
        rw [if_pos (by simp), List.tail_cons] at h
        obtain ⟨hd, hv⟩ := (weekDigits_eq_some_iff _ _).1 h
        exact ⟨['W'], tl, rfl, Or.inr rfl, hd, hv⟩
      · rw [if_neg (by simp [ha])] at h
        obtain ⟨hd, hv⟩ := (weekDigits_eq_some_iff _ _).1 h
        exact ⟨[], a :: tl, by simp, Or.inl rfl, hd, hv⟩
  · rintro ⟨t, wd, rfl, ht, hwd, rfl⟩
    rcases ht with rfl | rfl
    · cases wd with
      | nil => exact absurd rfl hwd.1
      | cons a wtl =>
        have hd : isPyDigit a := hwd.2.2 a (by simp)
        unfold matchWeekTail
        rw [List.nil_append, List.head?_cons, if_neg (by simp [digit_ne_W hd])]
        exact (weekDigits_eq_some_iff _ _).2 ⟨hwd, rfl⟩
    · unfold matchWeekTail
      rw [List.cons_append, List.nil_append, List.head?_cons, if_pos rfl, List.tail_cons]
      exact (weekDigits_eq_some_iff _ _).2 ⟨hwd, rfl⟩

lemma matchYearWeek_iff (cs : List Char) (y w : Nat) :
    matchYearWeek cs = some (y, w) ↔ YearWeekForm cs y w := by
  constructor
  · intro h
    match cs, h with
    | a :: b :: c :: d :: rest, h =>
      simp only [matchYearWeek] at h
      split_ifs at h with hdig
      · cases hmt : matchWeekTail (rest.dropWhile isSepChar) with
        | none => rw [hmt] at h; exact absurd h (by simp)
        | some w' =>
          rw [hmt] at h
          simp only [Option.some.injEq, Prod.mk.injEq] at h
          obtain ⟨t, wd, hsplit, ht, hdr, hwval⟩ := (matchWeekTail_iff _ _).1 hmt
          refine ⟨[a, b, c, d], rest.takeWhile isSepChar, t, wd, ?_, rfl, ?_, ?_, ht, hdr,
            h.1.symm, by rw [← h.2, hwval]⟩
          · have hr : rest.takeWhile isSepChar ++ rest.dropWhile isSepChar = rest :=
              List.takeWhile_append_dropWhile _ _
            simp only [List.cons_append, List.nil_append, List.append_assoc]
            rw [← hsplit, hr]
          · intro x hx
            simp only [List.mem_cons, List.not_mem_nil, or_false] at hx
            rcases hx with rfl | rfl | rfl | rfl
            · exact hdig.1
            · exact hdig.2.1
            · exact hdig.2.2.1
            · exact hdig.2.2.2
          · exact fun x hx => List.mem_takeWhile_imp hx
  · rintro ⟨yd, sep, t, wd, rfl, hydlen, hyddig, hsep, ht, hwd, rfl, rfl⟩
    match yd, hydlen with
    | [a, b, c, d], _ =>
      have hdrop : ((sep ++ (t ++ wd)).dropWhile isSepChar) = t ++ wd := by
        rw [dropWhile_append_all fun x hx => hsep x hx]
        rcases ht with rfl | rfl
        · cases wd with
          | nil => exact absurd rfl hwd.1
          | cons x xs =>
            exact dropWhile_cons_neg (by
              simpa using not_isSepChar_of_digit (hwd.2.2 x (by simp)))
        · exact dropWhile_cons_neg (by simp [isSepChar])
      have hmt : matchWeekTail (t ++ wd) = some (natOfDigits wd) :=
        (matchWeekTail_iff _ _).2 ⟨t, wd, rfl, ht, hwd, rfl⟩
      have hshape : ([a, b, c, d] ++ sep) ++ t ++ wd
          = a :: b :: c :: d :: (sep ++ (t ++ wd)) := by
        simp [List.append_assoc]
      rw [hshape]
      simp only [matchYearWeek]
      rw [if_pos ⟨hyddig a (by simp), hyddig b (by simp), hyddig c (by simp),
        hyddig d (by simp)⟩]
      rw [hdrop, hmt]

lemma YearWeekForm_length_ge {cs : List Char} {y w : Nat}
    (h : YearWeekForm cs y w) : 5 ≤ cs.length := by
  obtain ⟨yd, sep, t, wd, rfl, hlen, -, -, -, hwd, -, -⟩ := h
  have : 1 ≤ wd.length := List.length_pos.2 hwd.1
  simp only [List.length_append]
  omega

lemma BareWeekForm_length_le {cs : List Char} {w : Nat}
    (h : BareWeekForm cs w) : cs.length ≤ 3 := by
  obtain ⟨t, wd, rfl, ht, hwd, -⟩ := h
  have hw2 : wd.length ≤ 2 := hwd.2.1
  rcases ht with rfl | rfl <;> simp only [List.length_append, List.length_cons,
    List.length_nil] <;> omega

/-- C7 (counterexample): the claim says the `W` in a week argument is
matched case-insensitively, i.e. `"w05"` should parse to week 5; in fact
the regexes are compiled without `re.IGNORECASE`, so `"w05"` is rejected. -/
theorem parse_week_arg_lowercase_w_rejected :
    parse_week_arg "w05" = (none, none) ∧
      ((none, none) : Option Nat × Option Nat) ≠ (none, some 5) := by
  constructor
  · rfl
  · simp

/-- C7 (amended): `parse_week_arg` accepts exactly the strings whose
stripped form matches `\d{4}[-_ ]*W?\d{1,2}` (year form, uppercase `W`
only, with any run of `-`/`_`/space as separator) or `W?\d{1,2}` (bare
form), returning `(some year, some week)` resp. `(none, some week)`, and
`(none, none)` for everything else. -/
theorem parse_week_arg_spec (raw : String) (y w : Nat) :
    (parse_week_arg raw = (some y, some w) ↔ YearWeekForm (pyStripChars raw.data) y w)
    ∧ (parse_week_arg raw = (none, some w) ↔ BareWeekForm (pyStripChars raw.data) w) := by
  unfold parse_week_arg
  by_cases hraw : raw = ""
  · subst hraw
    have hcs : pyStripChars "".data = [] := rfl
    rw [hcs]
    simp only [if_pos rfl]
    constructor
    · constructor
      · intro h; exact absurd h (by simp)
      · intro h; exact absurd (YearWeekForm_length_ge h) (by simp)
    · constructor
      · intro h; exact absurd h (by simp)
      · intro h
        obtain ⟨t, wd, hsplit, -, hwd, -⟩ := h
        have : wd = [] := by
          have := congrArg List.length hsplit
          simp only [List.length_nil, List.length_append] at this
          exact List.length_eq_zero.1 (by omega)
        exact absurd this hwd.1
  · rw [if_neg hraw]
    cases hyw : matchYearWeek (pyStripChars raw.data) with
    | some p =>
      obtain ⟨y', w'⟩ := p
      have hform := (matchYearWeek_iff (pyStripChars raw.data) y' w').1 hyw
      simp only [hyw]
      constructor
      · constructor
        · intro h
          simp only [Prod.mk.injEq, Option.some.injEq] at h
          rwa [← h.1, ← h.2]
        · intro h
          have := (matchYearWeek_iff (pyStripChars raw.data) y w).2 h
          rw [hyw] at this
          simp only [Option.some.injEq, Prod.mk.injEq] at this
          simp [this.1, this.2]
      · constructor
        · intro h; exact absurd h (by simp)
        · intro h
          exact absurd (BareWeekForm_length_le h)
            (by have := YearWeekForm_length_ge hform; omega)
    | none =>
      cases hwt : matchWeekTail (pyStripChars raw.data) with
      | some w' =>
        simp only [hyw, hwt]
        constructor
        · constructor
          · intro h; exact absurd h (by simp)
          · intro h
            have := (matchYearWeek_iff (pyStripChars raw.data) y w).2 h
            rw [hyw] at this
            exact absurd this (by simp)
        · constructor
          · intro h
            simp only [Prod.mk.injEq, Option.some.injEq] at h
            obtain ⟨t, wd, hsplit, ht, hwd, hval⟩ :=
              (matchWeekTail_iff (pyStripChars raw.data) w').1 hwt
            exact ⟨t, wd, hsplit, ht, hwd, by rw [← h.2, hval]⟩
          · intro h
            have := (matchWeekTail_iff (pyStripChars raw.data) w).2 h
            rw [hwt] at this
            simp only [Option.some.injEq] at this
            simp [this]
      | none =>
        simp only [hyw, hwt]
        constructor
        · constructor
          · intro h; exact absurd h (by simp)
          · intro h
            have := (matchYearWeek_iff (pyStripChars raw.data) y w).2 h
            rw [hyw] at this
            exact absurd this (by simp)
        · constructor
          · intro h; exact absurd h (by simp)
          · intro h
            have := (matchWeekTail_iff (pyStripChars raw.data) w).2 h
            rw [hwt] at this
            exact absurd this (by simp)

/-! ## Changelog history and deploy-date resolution (extract.py lines 289-375)

A Jira changelog is modelled by its `histories` array: each entry has an
optional `created` timestamp and a list of change items, each with an
optional `field` name and an optional `toString` target value. -/

structure HistoryItem where
  field : Option String
  toString : Option String
  deriving DecidableEq, Repr

structure HistoryEntry where
  created : Option String
  items : List HistoryItem
  deriving DecidableEq, Repr

/-- `created.split("T")[0]`. -/
def split_T (s : String) : String := ⟨s.data.takeWhile (· ≠ 'T')⟩

/-- Python word character (`\w`), ASCII portion. -/
def isWordChar (c : Char) : Bool :=
  isPyDigit c || ('a' ≤ c && c ≤ 'z') || ('A' ≤ c && c ≤ 'Z') || c = '_'

/-- `re.search(r"\bprod\b", cs)` viewed as a Bool: an occurrence of
`prod` with non-word (or absent) characters on both sides. -/
def hasWordProd (cs : List Char) : Bool :=
  (List.range cs.length).any fun i =>
    ((cs.drop i).take 4 == ['p', 'r', 'o', 'd'])
    && (i == 0 || !(isWordChar (cs.getD (i - 1) ' ')))
    && (decide (cs.length ≤ i + 4) || !(isWordChar (cs.getD (i + 4) ' ')))

/-- Item test `item.get("field") == "status" and item.get("toString") == name`. -/
def isStatusTo (name : String) (it : HistoryItem) : Bool :=
  it.field == some "status" && it.toString == some name

/-- Item test for `get_deploying_to_prod_date_from_history`: the target
status is `"Deploying to PROD"` or `"Deploying To PROD"`. -/
def isStatusToDeploying (it : HistoryItem) : Bool :=
  it.field == some "status" &&
    (it.toString == some "Deploying to PROD" || it.toString == some "Deploying To PROD")

/-- Python's substring operator `needle in hay` on character lists. -/
def listContains (hay needle : List Char) : Bool :=
  (List.range (hay.length + 1)).any fun i => needle.isPrefixOf (hay.drop i)

/-- Item test for `get_awaiting_go_nogo_date_from_history`: keyword
matching on the lowercased target status (`awaiting` and `go` as
substrings, `prod` as a whole word). -/
def isStatusToAwaiting (it : HistoryItem) : Bool :=
  it.field == some "status" &&
    (let lower := ((it.toString).getD "").data.map Char.toLower
     listContains lower "awaiting".data && listContains lower "go".data && hasWordProd lower)

/-- Date contributed by one history entry: `created.split("T")[0]` when
`created` is present and truthy, otherwise nothing. -/
def entryDate (h : HistoryEntry) : Option String :=
  match h.created with
  | some c => if c ≠ "" then some (split_T c) else none
  | none => none

/-- Shared scan shape of the four deploy-date resolvers: walk the
histories in the order given; the first entry that contains a matching
item and has a truthy `created` yields `created.split("T")[0]`. -/
def firstTransitionDate (test : HistoryItem → Bool) (histories : List HistoryEntry) :
    Option String :=
  histories.findSome? fun h =>
    if h.items.any test then entryDate h else none

/-- `get_prod_date_from_history` (extract.py line 289). -/
def get_prod_date_from_history (histories : List HistoryEntry) : Option String :=
  firstTransitionDate (isStatusTo "In production") histories

/-- `get_deploying_to_prod_date_from_history` (extract.py line 300). -/
def get_deploying_to_prod_date_from_history (histories : List HistoryEntry) : Option String :=
  firstTransitionDate isStatusToDeploying histories

/-- `get_awaiting_go_nogo_date_from_history` (extract.py line 311). -/
def get_awaiting_go_nogo_date_from_history (histories : List HistoryEntry) : Option String :=
  firstTransitionDate isStatusToAwaiting histories

/-- `get_rcz_release_date` (extract.py line 341): first transition date
per trigger status (skipping entries without a truthy `created`), then
the priority order In production > Awaiting Go / No go PROD >
Deploying to PROD. -/
def get_rcz_release_date (histories : List HistoryEntry) : Option String :=
  match firstTransitionDate (isStatusTo "In production") histories with
  | some d => some d
  | none =>
    match firstTransitionDate (isStatusTo "Awaiting Go / No go PROD") histories with
    | some d => some d
    | none => firstTransitionDate (isStatusTo "Deploying to PROD") histories

/-- All dates that a given item test can produce, in history order. -/
def transitionDates (test : HistoryItem → Bool) (histories : List HistoryEntry) :
    List String :=
  histories.filterMap fun h =>
    if h.items.any test then entryDate h else none

/-- All dates carried by entries with a truthy `created`, in history order. -/
def allDates (histories : List HistoryEntry) : List String :=
  histories.filterMap entryDate

lemma firstTransitionDate_eq_head? (test : HistoryItem → Bool)
    (histories : List HistoryEntry) :
    firstTransitionDate test histories = (transitionDates test histories).head? := by
  induction histories with
  | nil => rfl
  | cons h t ih =>
    unfold firstTransitionDate transitionDates at *
    rw [List.findSome?_cons, List.filterMap_cons]
    by_cases hm : h.items.any test
    · rw [if_pos hm]
      cases hd : entryDate h with
      | none => exact ih
      | some d => rfl
    · rw [if_neg hm]; exact ih

lemma transitionDates_sublist_allDates (test : HistoryItem → Bool)
    (histories : List HistoryEntry) :
    (transitionDates test histories).Sublist (allDates histories) := by
  induction histories with
  | nil => exact List.Sublist.refl _
  | cons h t ih =>
    unfold transitionDates allDates at *
    rw [List.filterMap_cons, List.filterMap_cons]
    by_cases hm : h.items.any test
    · rw [if_pos hm]
      cases hd : entryDate h with
      | none => exact ih
      | some d => exact ih.cons₂ _
    · rw [if_neg hm]
      cases hd : entryDate h with
      | none => exact ih
      | some d => exact ih.cons _

lemma head?_is_min {l : List String} (hs : l.Pairwise (pyStrLe · ·)) :
    ∀ d, l.head? = some d → d ∈ l ∧ ∀ d' ∈ l, pyStrLe d d' := by
  intro d hd
  cases l with
  | nil => exact absurd hd (by simp)
  | cons a t =>
    simp only [List.head?_cons, Option.some.injEq] at hd
    subst hd
    refine ⟨by simp, ?_⟩
    intro d' hd'
    rcases List.mem_cons.1 hd' with rfl | hmem
    · exact listLexLe_refl _
    · exact (List.pairwise_cons.1 hs).1 d' hmem

/-- Specification "returns the earliest matching transition date": the
result is a member of the candidate-date list, below every other member,
and `none` exactly when no candidate exists. -/
def EarliestSpec (r : Option String) (dates : List String) : Prop :=
  (∀ d, r = some d → d ∈ dates ∧ ∀ d' ∈ dates, pyStrLe d d') ∧ (r = none ↔ dates = [])

lemma earliestSpec_of_sorted {test : HistoryItem → Bool} {histories : List HistoryEntry}
    (hchrono : (allDates histories).Pairwise (pyStrLe · ·)) :
    EarliestSpec (firstTransitionDate test histories) (transitionDates test histories) := by
  have hsorted : (transitionDates test histories).Pairwise (pyStrLe · ·) :=
    List.Pairwise.sublist (transitionDates_sublist_allDates test histories) hchrono
  constructor
  · intro d hd
    rw [firstTransitionDate_eq_head?] at hd
    exact head?_is_min hsorted d hd
  · rw [firstTransitionDate_eq_head?]
    exact List.head?_eq_none_iff

/-- Concrete changelog whose entries are NOT in chronological order: the
later transition to "In production" appears first in the array. -/
def exLateFirst : List HistoryEntry :=
  [{ created := some "2026-01-20T10:00:00.000+0000",
     items := [{ field := some "status", toString := some "In production" }] },
   { created := some "2026-01-10T09:00:00.000+0000",
     items := [{ field := some "status", toString := some "In production" }] }]

/-- C2 (counterexample): `get_prod_date_from_history` returns the date of
the first matching entry in array order, not the earliest: on a history
whose later transition is listed first it returns 2026-01-20 although the
earliest matching transition is 2026-01-10, and reversing the array flips
the answer, so the result is NOT independent of the array ordering. -/
theorem get_prod_date_not_earliest :
    get_prod_date_from_history exLateFirst = some "2026-01-20" ∧
    get_prod_date_from_history exLateFirst.reverse = some "2026-01-10" ∧
    pyStrLe "2026-01-10" "2026-01-20" ∧ "2026-01-10" ≠ "2026-01-20" ∧
    "2026-01-10" ∈ transitionDates (isStatusTo "In production") exLateFirst := by
  refine ⟨by decide, by decide, by decide, by decide, by decide⟩

/-- C2 (amended): the four deploy-date resolvers return the transition
date of the first matching entry in the array order given; when the
changelog's dates are chronologically sorted this is the earliest
matching transition (for `get_rcz_release_date`, the earliest for the
highest-priority trigger status that occurs at all). -/
theorem resolve_deploy_dates_earliest (histories : List HistoryEntry)
    (hchrono : (allDates histories).Pairwise (pyStrLe · ·)) :
    EarliestSpec (get_prod_date_from_history histories)
      (transitionDates (isStatusTo "In production") histories)
    ∧ EarliestSpec (get_deploying_to_prod_date_from_history histories)
      (transitionDates isStatusToDeploying histories)
    ∧ EarliestSpec (get_awaiting_go_nogo_date_from_history histories)
      (transitionDates isStatusToAwaiting histories)
    ∧ ((transitionDates (isStatusTo "In production") histories ≠ [] →
          EarliestSpec (get_rcz_release_date histories)
            (transitionDates (isStatusTo "In production") histories))
       ∧ (transitionDates (isStatusTo "In production") histories = [] →
          transitionDates (isStatusTo "Awaiting Go / No go PROD") histories ≠ [] →
          EarliestSpec (get_rcz_release_date histories)
            (transitionDates (isStatusTo "Awaiting Go / No go PROD") histories))
       ∧ (transitionDates (isStatusTo "In production") histories = [] →
          transitionDates (isStatusTo "Awaiting Go / No go PROD") histories = [] →
          EarliestSpec (get_rcz_release_date histories)
            (transitionDates (isStatusTo "Deploying to PROD") histories))) := by
  have hprod := @earliestSpec_of_sorted (isStatusTo "In production") histories hchrono
  have hawait := @earliestSpec_of_sorted (isStatusTo "Awaiting Go / No go PROD") histories hchrono
  have hdep := @earliestSpec_of_sorted (isStatusTo "Deploying to PROD") histories hchrono
  refine ⟨hprod, earliestSpec_of_sorted hchrono, earliestSpec_of_sorted hchrono, ?_, ?_, ?_⟩
  · intro hne
    have hsome : ∃ d, firstTransitionDate (isStatusTo "In production") histories = some d := by
      cases hfd : firstTransitionDate (isStatusTo "In production") histories with
      | none => exact absurd (hprod.2.1 hfd) hne
      | some d => exact ⟨d, rfl⟩
    obtain ⟨d, hd⟩ := hsome
    unfold get_rcz_release_date
    rw [hd]
    constructor
    · intro d' hd'
      simp only [Option.some.injEq] at hd'
      subst hd'
      exact hprod.1 d hd
    · simp only [reduceCtorEq, false_iff]
      exact hne
  · intro hp hane
    have hpn : firstTransitionDate (isStatusTo "In production") histories = none :=
      hprod.2.2 hp
    have hsome : ∃ d,
        firstTransitionDate (isStatusTo "Awaiting Go / No go PROD") histories = some d := by
      cases hfd : firstTransitionDate (isStatusTo "Awaiting Go / No go PROD") histories with
      | none => exact absurd (hawait.2.1 hfd) hane
      | some d => exact ⟨d, rfl⟩
    obtain ⟨d, hd⟩ := hsome
    unfold get_rcz_release_date
    rw [hpn, hd]
    constructor
    · intro d' hd'
      simp only [Option.some.injEq] at hd'
      subst hd'
      exact hawait.1 d hd
    · simp only [reduceCtorEq, false_iff]
      exact hane
  · intro hp ha
    have hpn : firstTransitionDate (isStatusTo "In production") histories = none :=
      hprod.2.2 hp
    have han : firstTransitionDate (isStatusTo "Awaiting Go / No go PROD") histories = none :=
      hawait.2.2 ha
    unfold get_rcz_release_date
    rw [hpn, han]
    exact hdep

/-- Chronologically sorted concrete changelog used to witness C2's
amended theorem. -/
def exChrono : List HistoryEntry :=
  [{ created := some "2026-01-10T09:00:00.000+0000",
     items := [{ field := some "status", toString := some "In production" }] },
   { created := some "2026-01-20T10:00:00.000+0000",
     items := [{ field := some "status", toString := some "In production" }] }]

/-- Witness for C2's amended theorem at a concrete sorted changelog. -/
theorem resolve_deploy_dates_earliest_witness :
    (allDates exChrono).Pairwise (pyStrLe · ·) ∧
    (get_prod_date_from_history exChrono = none ↔
      transitionDates (isStatusTo "In production") exChrono = []) :=
  ⟨by decide, ((resolve_deploy_dates_earliest exChrono (by decide)).1).2⟩

/-! ## Snapshot write change-detection (extract.py lines 2467-2503)

A snapshot entry is a fixed-shape mapping from family name to a
version-string-or-null, modelled as an association list; `pyDictGet`
mirrors `dict.get(key)` (absent key and stored null both give `None`). -/

def pyDictGet (d : List (String × Option String)) (k : String) : Option String :=
  (List.lookup k d).join

/-- Python truthiness of a version-or-null (`None` and `""` are falsy). -/
def pyTruthy (v : Option String) : Bool :=
  match v with
  | some s => s ≠ ""
  | none => false

/-- `v and v != "None"`: a version that is non-null, non-empty and not the
literal string `"None"`. -/
def pyLiveVersion (v : Option String) : Bool :=
  match v with
  | some s => s ≠ "" && s ≠ "None"
  | none => false

/-- `data_has_changed(existing_data, new_data)` (extract.py line 2467). -/
def data_has_changed (existing_data : Option (List (String × Option String)))
    (new_data : List (String × Option String)) : Bool :=
  match existing_data with
  | none => true
  | some ex =>
    new_data.any fun cv =>
      let ev := pyDictGet ex cv.1
      cv.2 != ev && (pyLiveVersion cv.2 || (pyLiveVersion ev && !pyTruthy cv.2))

/-- The `should_update` decision (extract.py lines 2484-2495): `force`
wins; otherwise an existing entry is compared by `data_has_changed`, and a
missing entry always triggers the write. -/
def should_update (force : Bool) (existing : Option (List (String × Option String)))
    (new_data : List (String × Option String)) : Bool :=
  if force then true
  else
    match existing with
    | some ex => data_has_changed (some ex) new_data
    | none => true

/-- The fixed family set of a snapshot entry (extract.py lines 2239-2257). -/
def famList : List String :=
  ["APIM", "EAH", "DOCG", "VDR", "PATRIC-SSDP", "RCZ", "SYNAPSE", "REFTEL", "CALVA",
   "REFSER2", "SERING", "VDP_PROC", "VDP_DS", "VDP_DS_SSDP", "VDP_DS_MON",
   "VDP_STORE", "VDP_STORE_2"]

/-- Existing snapshot entry holding version 1.0.0 for APIM. -/
def exExistingEntry : List (String × Option String) :=
  famList.map fun f => (f, if f = "APIM" then some "1.0.0" else none)

/-- New snapshot entry whose APIM field is the literal string "None". -/
def exNewEntry : List (String × Option String) :=
  famList.map fun f => (f, if f = "APIM" then some "None" else none)

/-- C4 (counterexample): the APIM field changes from the non-null,
non-empty value "1.0.0" to the different non-null, non-empty value
"None" (the literal string), so by the claim the write must be
performed; `should_update` nonetheless skips it, because
`data_has_changed` treats a new value equal to the string "None" as
never constituting a change. -/
theorem snapshot_write_skipped_despite_changed_field :
    ("APIM", some "None") ∈ exNewEntry ∧
    pyDictGet exExistingEntry "APIM" = some "1.0.0" ∧
    (some "None" : Option String) ≠ some "1.0.0" ∧
    ("None" : String) ≠ "" ∧
    should_update false (some exExistingEntry) exNewEntry = false := by
  refine ⟨by decide, by decide, by decide, by decide, by decide⟩

/-- C4 (amended): `should_update` is true exactly when `force` is set, or
no entry exists, or some field of the new entry differs from the existing
entry and either the new value is non-null/non-empty and not the literal
string "None", or the existing value is non-null/non-empty/non-"None"
and the new value is null or empty.  In particular a field changing to
the literal string "None" never triggers a write by itself. -/
theorem should_update_iff (force : Bool) (existing : Option (List (String × Option String)))
    (new_data : List (String × Option String)) :
    should_update force existing new_data = true ↔
      (force = true ∨ existing = none ∨
        ∃ ex, existing = some ex ∧ ∃ cv ∈ new_data,
          cv.2 ≠ pyDictGet ex cv.1 ∧
          (pyLiveVersion cv.2 = true ∨
            (pyLiveVersion (pyDictGet ex cv.1) = true ∧ pyTruthy cv.2 = false))) := by
  unfold should_update
  cases force with
  | true => simp
  | false =>
    simp only [Bool.false_eq_true, if_false, false_or]
    cases existing with
    | none => simp
    | some ex =>
      unfold data_has_changed
      simp only [List.any_eq_true, Bool.and_eq_true, Bool.or_eq_true, bne_iff_ne,
        Option.some.injEq, reduceCtorEq, false_or, Bool.not_eq_true']
      constructor
      · rintro ⟨cv, hmem, hne, hrest⟩
        exact ⟨ex, rfl, cv, hmem, hne, hrest⟩
      · rintro ⟨ex', rfl, cv, hmem, hne, hrest⟩
        exact ⟨cv, hmem, hne, hrest⟩

/-! ## Snapshot-store lookback (summarize.py lines 373-413)

The weekly stopper document is a JSON object mapping week keys to
per-family entries; it is modelled as an association list (Python dict
iteration order = insertion order, duplicate keys impossible but nothing
below needs that). -/

/-- Match `^(?P<y>\d{4})-W?(?P<w>\d{1,2})$`: unlike the CLI week regex
this one requires the literal `-` separator. -/
def matchKeyYearWeek (cs : List Char) : Option (Nat × Nat) :=
  match cs with
  | a :: b :: c :: d :: '-' :: rest =>
    if isPyDigit a ∧ isPyDigit b ∧ isPyDigit c ∧ isPyDigit d then
      (matchWeekTail rest).map fun w => (natOfDigits [a, b, c, d], w)
    else none
  | _ => none

/-- `_parse_stopper_key(k)` (summarize.py line 373): returns
`(year?, week?, raw key)`. -/
def _parse_stopper_key (k : String) : Option Int × Option Int × String :=
  match matchKeyYearWeek k.data with
  | some (y, w) => (some (y : Int), some (w : Int), k)
  | none =>
    match weekDigits k.data with
    | some w => (none, some (w : Int), k)
    | none => (none, none, k)

/-- The stopper store: week key to per-family entry. -/
abbrev Stopper := List (String × List (String × Option String))

/-- `stopper.get(raw, {}).get(key)`. -/
def stopperGet (stopper : Stopper) (raw key : String) : Option String :=
  pyDictGet ((List.lookup raw stopper).getD []) key

/-- Python `<=` on the `(year, week, raw_key)` triples that
`last_non_null` sorts (tuple comparison is lexicographic). -/
def tupLe (a b : Int × Int × String) : Bool :=
  decide (a.1 < b.1) ||
    (decide (a.1 = b.1) &&
      (decide (a.2.1 < b.2.1) || (decide (a.2.1 = b.2.1) && pyStrLe a.2.2 b.2.2)))

/-- One loop step of `last_non_null`'s key normalisation: parse the key,
skip it if no week was recognised, otherwise attach the effective year
(previous year exactly when the target week is ≤ 10 and the bare stored
week is > 40). -/
def keyTriple (target_year target_week : Int) (k : String) :
    Option (Int × Int × String) :=
  match _parse_stopper_key k with
  | (_, none, _) => none
  | (yOpt, some w, raw) =>
    some (match yOpt with
          | some y => y
          | none => if target_week ≤ 10 ∧ w > 40 then target_year - 1 else target_year,
          w, raw)

/-- The `parsed` list of `last_non_null`. -/
def parsedStopperKeys (stopper : Stopper) (ty tw : Int) : List (Int × Int × String) :=
  stopper.filterMap fun kv => keyTriple ty tw kv.1

/-- `(y, w) < (target_year, target_week)` on Python tuples. -/
def beforeTarget (ty tw : Int) (t : Int × Int × String) : Bool :=
  decide (t.1 < ty) || (decide (t.1 = ty) && decide (t.2.1 < tw))

/-- The `candidates` list of `last_non_null`: normalised keys, sorted
chronologically (Python `list.sort()` is a stable sort, as is
`mergeSort`), restricted to strictly before the target. -/
def lookbackCandidates (stopper : Stopper) (ty tw : Int) : List (Int × Int × String) :=
  ((parsedStopperKeys stopper ty tw).mergeSort tupLe).filter (beforeTarget ty tw)

/-- Body of the final scan: the stored value if it is neither null nor
`""` nor the literal string `"None"`. -/
def liveVal (stopper : Stopper) (key : String) (t : Int × Int × String) : Option String :=
  match stopperGet stopper t.2.2 key with
  | some v => if v ≠ "" ∧ v ≠ "None" then some v else none
  | none => none

/-- `last_non_null(stopper, target_year, target_week, key)`
(summarize.py line 383). -/
def last_non_null (stopper : Stopper) (target_year target_week : Int) (key : String) :
    Option String :=
  ((lookbackCandidates stopper target_year target_week).reverse).findSome?
    (liveVal stopper key)

lemma tupLe_trans : ∀ a b c : Int × Int × String, tupLe a b → tupLe b c → tupLe a c := by
  intro a b c hab hbc
  unfold tupLe at *
  simp only [Bool.or_eq_true, Bool.and_eq_true, decide_eq_true_eq] at hab hbc ⊢
  rcases hab with hab | ⟨hy, hab⟩
  · rcases hbc with hbc | ⟨hy', -⟩
    · exact Or.inl (lt_trans hab hbc)
    · exact Or.inl (hy' ▸ hab)
  · rcases hbc with hbc | ⟨hy', hbc⟩
    · exact Or.inl (hy ▸ hbc)
    · refine Or.inr ⟨hy.trans hy', ?_⟩
      rcases hab with hab | ⟨hw, hab⟩
      · rcases hbc with hbc | ⟨hw', -⟩
        · exact Or.inl (lt_trans hab hbc)
        · exact Or.inl (hw' ▸ hab)
      · rcases hbc with hbc | ⟨hw', hbc⟩
        · exact Or.inl (hw ▸ hbc)
        · exact Or.inr ⟨hw.trans hw', listLexLe_trans hab hbc⟩

lemma tupLe_total : ∀ a b : Int × Int × String, tupLe a b || tupLe b a := by
  intro a b
  unfold tupLe
  simp only [Bool.or_eq_true, Bool.and_eq_true, decide_eq_true_eq]
  rcases lt_trichotomy a.1 b.1 with h | h | h
  · exact Or.inl (Or.inl h)
  · rcases lt_trichotomy a.2.1 b.2.1 with h2 | h2 | h2
    · exact Or.inl (Or.inr ⟨h, Or.inl h2⟩)
    · rcases listLexLe_total a.2.2.data b.2.2.data with h3 | h3
      · exact Or.inl (Or.inr ⟨h, Or.inr ⟨h2, h3⟩⟩)
      · exact Or.inr (Or.inr ⟨h.symm, Or.inr ⟨h2.symm, h3⟩⟩)
    · exact Or.inr (Or.inr ⟨h.symm, Or.inl h2⟩)
  · exact Or.inr (Or.inl h)

lemma tupLe_antisymm : ∀ {a b : Int × Int × String}, tupLe a b → tupLe b a → a = b := by
  intro a b hab hba
  unfold tupLe at hab hba
  simp only [Bool.or_eq_true, Bool.and_eq_true, decide_eq_true_eq] at hab hba
  obtain ⟨a1, a2, a3⟩ := a
  obtain ⟨b1, b2, b3⟩ := b
  simp only at hab hba
  rcases hab with hab | ⟨rfl, hab⟩
  · rcases hba with hba | ⟨rfl, -⟩
    · exact absurd hba (not_lt_of_lt hab)
    · exact absurd hab (lt_irrefl _)
  · rcases hba with hba | ⟨-, hba⟩
    · exact absurd hba (lt_irrefl _)
    · rcases hab with hab | ⟨rfl, hab⟩
      · rcases hba with hba | ⟨rfl, -⟩
        · exact absurd hba (not_lt_of_lt hab)
        · exact absurd hab (lt_irrefl _)
      · rcases hba with hba | ⟨-, hba⟩
        · exact absurd hba (lt_irrefl _)
        · have : a3 = b3 := String.ext (listLexLe_antisymm hab hba)
          rw [this]

/-- Spec-side candidate notion for the lookback: `raw` is a stored key,
it parses to week `w`, `y` is the explicit year when the key carries one
and otherwise the previous year exactly when the target week is ≤ 10 and
the stored bare week is > 40 (else the target year), and `(y, w)` is
strictly before `(target_year, target_week)`. -/
def IsLookbackCandidate (stopper : Stopper) (ty tw : Int) (y w : Int) (raw : String) :
    Prop :=
  (∃ e, (raw, e) ∈ stopper) ∧
  (_parse_stopper_key raw).2.1 = some w ∧
  y = (match (_parse_stopper_key raw).1 with
       | some y' => y'
       | none => if tw ≤ 10 ∧ w > 40 then ty - 1 else ty) ∧
  (y < ty ∨ (y = ty ∧ w < tw))

/-- The value stored for `fam` under key `raw` is null, absent, empty or
the literal string "None". -/
def NullishAt (stopper : Stopper) (fam raw : String) : Prop :=
  ∀ v, stopperGet stopper raw fam = some v → v = "" ∨ v = "None"

lemma _parse_stopper_key_raw (k : String) : (_parse_stopper_key k).2.2 = k := by
  unfold _parse_stopper_key
  cases matchKeyYearWeek k.data with
  | some p => obtain ⟨y, w⟩ := p; rfl
  | none => cases weekDigits k.data <;> rfl

lemma keyTriple_eq_some_iff (ty tw : Int) (k : String) (y w : Int) (raw : String) :
    keyTriple ty tw k = some (y, w, raw) ↔
      raw = k ∧ (_parse_stopper_key k).2.1 = some w ∧
      y = (match (_parse_stopper_key k).1 with
           | some y' => y'
           | none => if tw ≤ 10 ∧ w > 40 then ty - 1 else ty) := by
  have hr := _parse_stopper_key_raw k
  unfold keyTriple
  rcases hp : _parse_stopper_key k with ⟨yO, wO, r⟩
  rw [hp] at hr
  simp only at hr
  subst hr
  cases wO with
  | none => simp
  | some w' =>
    simp only [Option.some.injEq, Prod.mk.injEq]
    constructor
    · rintro ⟨rfl, rfl, rfl⟩
      exact ⟨rfl, rfl, rfl⟩
    · rintro ⟨rfl, hw, hy⟩
      obtain rfl : w' = w := by simpa using hw
      exact ⟨hy.symm, rfl, rfl⟩

lemma parsedStopperKeys_mem_iff (stopper : Stopper) (ty tw : Int)
    (y w : Int) (raw : String) :
    (y, w, raw) ∈ parsedStopperKeys stopper ty tw ↔
      (∃ e, (raw, e) ∈ stopper) ∧
      (_parse_stopper_key raw).2.1 = some w ∧
      y = (match (_parse_stopper_key raw).1 with
           | some y' => y'
           | none => if tw ≤ 10 ∧ w > 40 then ty - 1 else ty) := by
  unfold parsedStopperKeys
  rw [List.mem_filterMap]
  constructor
  · rintro ⟨kv, hmem, hkt⟩
    obtain ⟨rfl, hw, hy⟩ := (keyTriple_eq_some_iff ty tw kv.1 y w raw).1 hkt
    exact ⟨⟨kv.2, hmem⟩, hw, hy⟩
  · rintro ⟨⟨e, hmem⟩, hw, hy⟩
    exact ⟨(raw, e), hmem, (keyTriple_eq_some_iff ty tw raw y w raw).2 ⟨rfl, hw, hy⟩⟩

lemma beforeTarget_iff (ty tw : Int) (t : Int × Int × String) :
    beforeTarget ty tw t = true ↔ (t.1 < ty ∨ (t.1 = ty ∧ t.2.1 < tw)) := by
  unfold beforeTarget
  simp [Bool.or_eq_true, Bool.and_eq_true, decide_eq_true_eq]

lemma lookbackCandidates_mem_iff (stopper : Stopper) (ty tw : Int)
    (y w : Int) (raw : String) :
    (y, w, raw) ∈ lookbackCandidates stopper ty tw ↔
      IsLookbackCandidate stopper ty tw y w raw := by
  unfold lookbackCandidates IsLookbackCandidate
  rw [List.mem_filter, List.mem_mergeSort, parsedStopperKeys_mem_iff,
    beforeTarget_iff]
  constructor
  · rintro ⟨⟨h1, h2, h3⟩, h4⟩
    exact ⟨h1, h2, h3, h4⟩
  · rintro ⟨h1, h2, h3, h4⟩
    exact ⟨⟨h1, h2, h3⟩, h4⟩

lemma lookbackCandidates_sorted (stopper : Stopper) (ty tw : Int) :
    (lookbackCandidates stopper ty tw).Pairwise (tupLe · ·) :=
  List.Pairwise.filter _
    (List.sorted_mergeSort tupLe_trans tupLe_total (parsedStopperKeys stopper ty tw))

lemma liveVal_eq_none_iff (stopper : Stopper) (fam : String) (t : Int × Int × String) :
    liveVal stopper fam t = none ↔ NullishAt stopper fam t.2.2 := by
  unfold liveVal NullishAt
  cases hg : stopperGet stopper t.2.2 fam with
  | none => simp
  | some v =>
    constructor
    · intro h v' hv'
      obtain rfl : v = v' := Option.some.inj hv'
      by_contra hcon
      push_neg at hcon
      have h' : (if v ≠ "" ∧ v ≠ "None" then some v else none) = none := h
      rw [if_pos hcon] at h'
      exact absurd h' (by simp)
    · intro h
      show (if v ≠ "" ∧ v ≠ "None" then some v else none) = none
      rw [if_neg ?_]
      intro hcon
      rcases h v rfl with rfl | rfl
      · exact hcon.1 rfl
      · exact hcon.2 rfl

lemma findSome?_eq_some_split {α β : Type} {l : List α} {f : α → Option β} {v : β}
    (h : l.findSome? f = some v) :
    ∃ l1 a l2, l = l1 ++ a :: l2 ∧ f a = some v ∧ ∀ x ∈ l1, f x = none := by
  induction l with
  | nil => exact absurd h (by simp)
  | cons a t ih =>
    rw [List.findSome?_cons] at h
    cases hfa : f a with
    | some b =>
      rw [hfa] at h
      obtain rfl : b = v := Option.some.inj h
      exact ⟨[], a, t, rfl, hfa, by simp⟩
    | none =>
      rw [hfa] at h
      obtain ⟨l1, x, l2, rfl, hfx, hnone⟩ := ih h
      refine ⟨a :: l1, x, l2, rfl, hfx, ?_⟩
      intro z hz
      rcases List.mem_cons.1 hz with rfl | hz'
      · exact hfa
      · exact hnone z hz'

/-- C3 (theorem): characterisation of `last_non_null`.  A bare-number key
is assigned the previous year exactly when the target week is ≤ 10 and
its stored week is > 40, else the target year (this rule is baked into
`IsLookbackCandidate`); only keys whose normalised `(year, week)` is
strictly before the target are ever consulted; the scan runs from the
most recent candidate to the oldest (ties on `(year, week)` broken by
the raw key string) and returns the first value that is not null, not
empty and not the literal string `"None"`; it returns `none` when every
candidate's value is nullish — in particular the entry of the target week
itself, or of any later week, never contributes. -/
theorem last_non_null_spec (stopper : Stopper) (ty tw : Int) (fam : String) :
    (∀ v, last_non_null stopper ty tw fam = some v →
       v ≠ "" ∧ v ≠ "None" ∧
       ∃ y w raw, IsLookbackCandidate stopper ty tw y w raw ∧
         stopperGet stopper raw fam = some v ∧
         ∀ y' w' raw', IsLookbackCandidate stopper ty tw y' w' raw' →
           tupLe (y, w, raw) (y', w', raw') → (y, w, raw) ≠ (y', w', raw') →
           NullishAt stopper fam raw')
    ∧ (last_non_null stopper ty tw fam = none ↔
        ∀ y w raw, IsLookbackCandidate stopper ty tw y w raw →
          NullishAt stopper fam raw) := by
  constructor
  · intro v hv
    unfold last_non_null at hv
    obtain ⟨l1, c, l2, hsplit, hc, hnone⟩ := findSome?_eq_some_split hv
    obtain ⟨cy, cw, craw⟩ := c
    have hval : stopperGet stopper craw fam = some v ∧ v ≠ "" ∧ v ≠ "None" := by
      unfold liveVal at hc
      cases hg : stopperGet stopper craw fam with
      | none => rw [hg] at hc; exact absurd hc (by simp)
      | some v0 =>
        rw [hg] at hc
        have hc' : (if v0 ≠ "" ∧ v0 ≠ "None" then some v0 else none) = some v := hc
        by_cases hcc : v0 ≠ "" ∧ v0 ≠ "None"
        · rw [if_pos hcc] at hc'
          obtain rfl : v0 = v := Option.some.inj hc'
          exact ⟨rfl, hcc⟩
        · rw [if_neg hcc] at hc'
          exact absurd hc' (by simp)
    have hcmem : (cy, cw, craw) ∈ lookbackCandidates stopper ty tw := by
      have : (cy, cw, craw) ∈ (lookbackCandidates stopper ty tw).reverse := by
        rw [hsplit]; simp
      exact List.mem_reverse.1 this
    have hcand := (lookbackCandidates_mem_iff stopper ty tw cy cw craw).1 hcmem
    refine ⟨hval.2.1, hval.2.2, cy, cw, craw, hcand, hval.1, ?_⟩
    intro y' w' raw' hcand' hle hne
    have hmem' : (y', w', raw') ∈ lookbackCandidates stopper ty tw :=
      (lookbackCandidates_mem_iff stopper ty tw y' w' raw').2 hcand'
    have hlist : lookbackCandidates stopper ty tw = l2.reverse ++ (cy, cw, craw) :: l1.reverse := by
      have := congrArg List.reverse hsplit
      simpa [List.reverse_append] using this
    rw [hlist] at hmem'
    rcases List.mem_append.1 hmem' with hmem2 | hmem2
    · exfalso
      have hsorted := lookbackCandidates_sorted stopper ty tw
      rw [hlist] at hsorted
      have hrel := (List.pairwise_append.1 hsorted).2.2 _ hmem2 (cy, cw, craw) (by simp)
      exact hne (tupLe_antisymm hle hrel)
    · rcases List.mem_cons.1 hmem2 with heq | hmem3
      · exact absurd heq.symm hne
      · have : liveVal stopper fam (y', w', raw') = none :=
          hnone _ (List.mem_reverse.1 hmem3)
        exact (liveVal_eq_none_iff stopper fam _).1 this
  · unfold last_non_null
    rw [List.findSome?_eq_none_iff]
    constructor
    · intro h y w raw hcand
      have hmem : (y, w, raw) ∈ lookbackCandidates stopper ty tw :=
        (lookbackCandidates_mem_iff stopper ty tw y w raw).2 hcand
      have := h _ (List.mem_reverse.2 hmem)
      exact (liveVal_eq_none_iff stopper fam _).1 this
    · intro h t ht
      obtain ⟨y, w, raw⟩ := t
      have hmem := List.mem_reverse.1 ht
      have hcand := (lookbackCandidates_mem_iff stopper ty tw y w raw).1 hmem
      exact (liveVal_eq_none_iff stopper fam _).2 (h y w raw hcand)

lemma lookup_append_ne {α : Type} [DecidableEq α] {β : Type} (k r : α) (v : β)
    (l1 l2 : List (α × β)) (hne : r ≠ k) :
    List.lookup r (l1 ++ (k, v) :: l2) = List.lookup r (l1 ++ l2) := by
  induction l1 with
  | nil =>
    simp only [List.nil_append, List.lookup]
    cases hbeq : (r == k) with
    | true => exact absurd (by simpa using hbeq) hne
    | false => rfl
  | cons p t ih =>
    obtain ⟨pk, pv⟩ := p
    simp only [List.cons_append, List.lookup]
    cases hcase : (r == pk) with
    | true => rfl
    | false => exact ih

lemma findSome?_congr_mem {α β : Type} {l : List α} {f g : α → Option β}
    (h : ∀ x ∈ l, f x = g x) : l.findSome? f = l.findSome? g := by
  induction l with
  | nil => rfl
  | cons a t ih =>
    rw [List.findSome?_cons, List.findSome?_cons, h a (by simp)]
    cases g a with
    | some b => rfl
    | none => exact ih fun x hx => h x (by simp [hx])

/-- C10 (theorem): `last_non_null` is a total function and a stored key
that matches neither stopper-key pattern (no week recognised by
`_parse_stopper_key`) is silently ignored: deleting such a pair from the
store, wherever it sits, never changes the result. -/
theorem last_non_null_ignores_unparsable_keys
    (l1 l2 : Stopper) (k : String) (e : List (String × Option String))
    (ty tw : Int) (fam : String)
    (hbad : (_parse_stopper_key k).2.1 = none) :
    last_non_null (l1 ++ (k, e) :: l2) ty tw fam = last_non_null (l1 ++ l2) ty tw fam := by
  have hkt : keyTriple ty tw k = none := by
    unfold keyTriple
    rcases hp : _parse_stopper_key k with ⟨yO, wO, r⟩
    rw [hp] at hbad
    simp only at hbad
    subst hbad
    rfl
  have hparsed : parsedStopperKeys (l1 ++ (k, e) :: l2) ty tw
      = parsedStopperKeys (l1 ++ l2) ty tw := by
    unfold parsedStopperKeys
    rw [List.filterMap_append, List.filterMap_append, List.filterMap_cons]
    rw [hkt]
  have hcands : lookbackCandidates (l1 ++ (k, e) :: l2) ty tw
      = lookbackCandidates (l1 ++ l2) ty tw := by
    unfold lookbackCandidates
    rw [hparsed]
  unfold last_non_null
  rw [hcands]
  apply findSome?_congr_mem
  intro t ht
  have hmem := List.mem_reverse.1 ht
  obtain ⟨y, w, raw⟩ := t
  have hcand := (lookbackCandidates_mem_iff (l1 ++ l2) ty tw y w raw).1 hmem
  have hraw : raw ≠ k := by
    intro hrk
    rw [hrk] at hcand
    rw [hcand.2.1] at hbad
    exact absurd hbad (by simp)
  unfold liveVal stopperGet
  rw [lookup_append_ne k raw e l1 l2 hraw]

/-- Witness for C10 at a concrete store: the unparsable keys `"123"`
(three digits) and `"abc"` contribute nothing. -/
theorem last_non_null_ignores_unparsable_keys_witness :
    (_parse_stopper_key "123").2.1 = none ∧
    last_non_null [("2025-W47", [("APIM", some "1.1.0")]), ("123", [("APIM", some "9")])]
        2025 48 "APIM"
      = last_non_null [("2025-W47", [("APIM", some "1.1.0")])] 2025 48 "APIM" :=
  ⟨by decide,
   last_non_null_ignores_unparsable_keys
     [("2025-W47", [("APIM", some "1.1.0")])] [] "123" [("APIM", some "9")]
     2025 48 "APIM" (by decide)⟩

/-! ## Version tuples and the report serializer's sort orders
(extract.py lines 123-133, 1514, 1557-2228) -/

/-- Accumulator pass over the characters: `cur` is the value of the digit
run currently being read, if any; a run is emitted when it ends. -/
def digitRunsAux : Option Nat → List Char → List Nat
  | none, [] => []
  | some n, [] => [n]
  | none, c :: rest =>
    if isPyDigit c then digitRunsAux (some (c.toNat - '0'.toNat)) rest
    else digitRunsAux none rest
  | some n, c :: rest =>
    if isPyDigit c then digitRunsAux (some (n * 10 + (c.toNat - '0'.toNat))) rest
    else n :: digitRunsAux none rest

/-- `re.findall(r"\d+", v)` as numbers: the maximal digit runs of a
string, each read as a natural number. -/
def digitRuns (cs : List Char) : List Nat := digitRunsAux none cs

/-- `vtuple(v)` (extract.py line 123 / summarize.py line 57): the tuple
of all digit runs (the `int(...)` conversions cannot raise on a string
input, so the `except` branch is dead for the pipeline's inputs). -/
def vtuple (v : String) : List Nat := digitRuns v.data

/-- Python `<=` on tuples of ints (lexicographic, a strict prefix is
smaller). -/
def listNatLe : List Nat → List Nat → Bool
  | [], _ => true
  | _ :: _, [] => false
  | a :: as, b :: bs => a < b || (a == b && listNatLe as bs)

lemma listNatLe_trans : ∀ {a b c : List Nat},
    listNatLe a b → listNatLe b c → listNatLe a c
  | [], _, _, _, _ => rfl
  | _ :: _, [], _, h, _ => by simp [listNatLe] at h
  | _ :: _, _ :: _, [], _, h => by simp [listNatLe] at h
  | a :: as, b :: bs, c :: cs, hab, hbc => by
    simp only [listNatLe, Bool.or_eq_true, Bool.and_eq_true, decide_eq_true_eq,
      beq_iff_eq] at hab hbc ⊢
    rcases hab with hab | ⟨rfl, hab⟩
    · rcases hbc with hbc | ⟨rfl, hbc⟩
      · exact Or.inl (lt_trans hab hbc)
      · exact Or.inl hab
    · rcases hbc with hbc | ⟨rfl, hbc⟩
      · exact Or.inl hbc
      · exact Or.inr ⟨rfl, listNatLe_trans hab hbc⟩

lemma listNatLe_total : ∀ (a b : List Nat), listNatLe a b ∨ listNatLe b a
  | [], _ => Or.inl rfl
  | _ :: _, [] => Or.inr rfl
  | a :: as, b :: bs => by
    simp only [listNatLe, Bool.or_eq_true, Bool.and_eq_true, decide_eq_true_eq,
      beq_iff_eq]
    rcases lt_trichotomy a b with h | rfl | h
    · exact Or.inl (Or.inl h)
    · rcases listNatLe_total as bs with h | h
      · exact Or.inl (Or.inr ⟨rfl, h⟩)
      · exact Or.inr (Or.inr ⟨rfl, h⟩)
    · exact Or.inr (Or.inl h)

/-- Python `<` on strings. -/
def pyStrLt (a b : String) : Bool := pyStrLe a b && a != b

/-- Python `<=` on the sort keys `(d["system"], vtuple(d["version"]))`
used for the APIM/EAH block group (extract.py line 1514). -/
def apimSortLe (a b : String × List Nat) : Bool :=
  pyStrLt a.1 b.1 || (a.1 == b.1 && listNatLe a.2 b.2)

/-- A linked issue as carried in a selected record (the dict built by
`extract_linked_issues_from_issue_json`). -/
structure LinkedIssue where
  key : String
  summary : String
  status : String
  assignee : String
  issuetype : String
  created : String
  deriving DecidableEq, Repr

/-- One APIM/EAH selected record (the dict appended to
`apim_eah_enablers`); the `full` Jira payload is represented by the
linked-issue list that `extract_linked_issues_from_issue_json` extracts
from it, which is all the serializer reads from it. -/
structure ApimRec where
  system : String
  version : String
  key : String
  summary : String
  status : String
  assignee : String
  issuetype : String
  deploy_date : String
  linked : List LinkedIssue
  deriving DecidableEq, Repr

/-- One enabler-family selected record (the dict appended to
`docg_enablers`, `vdr_enablers`, …), with `full` represented as in
`ApimRec`. -/
structure EnablerRec where
  enabler_name : String
  enabler_version : String
  key : String
  summary : String
  status : String
  assignee : String
  issuetype : String
  deploy_date : String
  linked : List LinkedIssue
  deriving DecidableEq, Repr

/-- `sorted(apim_eah_enablers, key=lambda d: (d["system"], vtuple(d["version"])))`. -/
def apimEahSorted (l : List ApimRec) : List ApimRec :=
  l.mergeSort fun a b => apimSortLe (a.system, vtuple a.version) (b.system, vtuple b.version)

/-- `sorted(xs, key=lambda d: d.get("enabler_version") or "")`, the sort
used for every non-APIM/EAH block group (extract.py lines 1557, 1602,
1647, 1691, 1735, 1779, 1823, 1868, 1913, 1961, 2006, 2051, 2096, 2141,
2186): a plain string comparison of the version. -/
def enablerSorted (l : List EnablerRec) : List EnablerRec :=
  l.mergeSort fun a b => pyStrLe a.enabler_version b.enabler_version

/-- Concrete DOCG records with versions 10.0 and 2.0. -/
def docgRecTen : EnablerRec :=
  { enabler_name := "DOCG", enabler_version := "10.0", key := "IOTPF-1",
    summary := "DOCG 10.0", status := "In production", assignee := "",
    issuetype := "Enabler Version - IOT PF", deploy_date := "2026-01-05", linked := [] }

def docgRecTwo : EnablerRec :=
  { enabler_name := "DOCG", enabler_version := "2.0", key := "IOTPF-2",
    summary := "DOCG 2.0", status := "In production", assignee := "",
    issuetype := "Enabler Version - IOT PF", deploy_date := "2026-01-05", linked := [] }

/-- C5 (counterexample): the DOCG block group (like every non-APIM/EAH
group) is sorted by the raw version string, not by the numeric-tuple
comparator: with versions "10.0" and "2.0" the serializer emits "10.0"
first, although the numeric-tuple comparator places (2,0) strictly
before (10,0). -/
theorem docg_blocks_not_numerically_sorted :
    (enablerSorted [docgRecTen, docgRecTwo]).map (fun r => r.enabler_version)
      = ["10.0", "2.0"] ∧
    vtuple "2.0" = [2, 0] ∧ vtuple "10.0" = [10, 0] ∧
    listNatLe (vtuple "2.0") (vtuple "10.0") = true ∧
    vtuple "2.0" ≠ vtuple "10.0" := by
  have hsorted : enablerSorted [docgRecTen, docgRecTwo] = [docgRecTen, docgRecTwo] :=
    List.mergeSort_of_sorted (by decide)
  refine ⟨by rw [hsorted]; decide, by decide, by decide, by decide, by decide⟩

/-- C5 (amended): only the APIM/EAH group is ordered by the
`(family, numeric version tuple)` comparator; every other family's block
group is emitted in plain lexicographic order of the raw version string. -/
theorem serializer_group_sort_orders (apim : List ApimRec) (enab : List EnablerRec) :
    (apimEahSorted apim).Pairwise
      (fun a b => apimSortLe (a.system, vtuple a.version) (b.system, vtuple b.version))
    ∧ (enablerSorted enab).Pairwise
      (fun a b => pyStrLe a.enabler_version b.enabler_version) := by
  constructor
  · apply List.sorted_mergeSort
    · intro a b c hab hbc
      unfold apimSortLe pyStrLt pyStrLe at *
      simp only [Bool.or_eq_true, Bool.and_eq_true, bne_iff_ne, beq_iff_eq] at hab hbc ⊢
      rcases hab with ⟨hab, habne⟩ | ⟨he, hab⟩
      · rcases hbc with ⟨hbc, hbcne⟩ | ⟨he', hbc⟩
        · refine Or.inl ⟨listLexLe_trans hab hbc, ?_⟩
          intro heq
          exact habne (String.ext (listLexLe_antisymm hab (heq ▸ hbc)))
        · exact Or.inl ⟨he' ▸ hab, he' ▸ habne⟩
      · rcases hbc with ⟨hbc, hbcne⟩ | ⟨he', hbc⟩
        · exact Or.inl ⟨he ▸ hbc, he ▸ hbcne⟩
        · exact Or.inr ⟨he.trans he', listNatLe_trans hab hbc⟩
    · intro a b
      unfold apimSortLe pyStrLt pyStrLe
      simp only [Bool.or_eq_true, Bool.and_eq_true, bne_iff_ne, beq_iff_eq]
      by_cases he : a.system = b.system
      · rcases listNatLe_total (vtuple a.version) (vtuple b.version) with h | h
        · exact Or.inl (Or.inr ⟨he, h⟩)
        · exact Or.inr (Or.inr ⟨he.symm, h⟩)
      · rcases listLexLe_total a.system.data b.system.data with h | h
        · exact Or.inl (Or.inl ⟨h, he⟩)
        · exact Or.inr (Or.inl ⟨h, fun heq => he heq.symm⟩)
  · apply List.sorted_mergeSort
    · intro a b c hab hbc
      exact listLexLe_trans hab hbc
    · intro a b
      unfold pyStrLe
      simp only [Bool.or_eq_true]
      exact listLexLe_total a.enabler_version.data b.enabler_version.data

/-! ## Candidate classification (extract.py lines 167-171 and 402-480) -/

/-- `str.rstrip(chars)` driven by a character predicate. -/
def pyRstripChars (p : Char → Bool) (cs : List Char) : List Char :=
  (cs.reverse.dropWhile p).reverse

/-- `version.strip().rstrip(".")` as applied to a captured version token. -/
def stripVersionToken (s : String) : String :=
  ⟨pyRstripChars (· = '.') (pyStripChars s.data)⟩

/-- The character class `[-\s]` of the summary regexes. -/
def isDashOrSpace (c : Char) : Bool := c = '-' || isPySpace c

/-- Greedy match of `([0-9]+\.[0-9]+\.[0-9]+)` at the head of `cs`,
returning the captured characters.  Each digit run is maximal, and since
a digit can never match the following literal `.`, the greedy runs need
no backtracking. -/
def matchThreePartVersion (cs : List Char) : Option (List Char) :=
  let d1 := cs.takeWhile isPyDigit
  match d1, cs.dropWhile isPyDigit with
  | _ :: _, '.' :: r2 =>
    let d2 := r2.takeWhile isPyDigit
    match d2, r2.dropWhile isPyDigit with
    | _ :: _, '.' :: r4 =>
      let d3 := r4.takeWhile isPyDigit
      if d3 = [] then none else some (d1 ++ '.' :: d2 ++ '.' :: d3)
    | _, _ => none
  | _, _ => none

/-- Match `TOKEN[-\s]*([0-9]+\.[0-9]+\.[0-9]+)` (case-insensitively, with
`token` given lowercased) at the head of `cs`.  `[-\s]*` is greedy and
deterministic because none of its characters is a digit. -/
def matchTokenSemverAt (token : List Char) (cs : List Char) : Option (List Char) :=
  if (cs.take token.length).map Char.toLower = token then
    matchThreePartVersion ((cs.drop token.length).dropWhile isDashOrSpace)
  else
    none

/-- `re.search` for the summary-version regexes: leftmost match wins. -/
def searchTokenSemver (token : List Char) (s : String) : Option String :=
  ((List.range (s.data.length + 1)).findSome? fun i =>
    matchTokenSemverAt token (s.data.drop i)).map fun v => ⟨v⟩

/-- `APIM_RE.search(summary)` returning group 1 (extract.py line 167). -/
def APIM_RE_search (s : String) : Option String := searchTokenSemver "apim".data s

/-- `EAH_RE.search(summary)` returning group 1 (extract.py line 168). -/
def EAH_RE_search (s : String) : Option String := searchTokenSemver "eah".data s

/-- The APIM/EAH branch of the candidate loop (extract.py lines 410-431):
APIM is tried first, EAH only if APIM did not match, and the captured
version is stripped of surrounding whitespace and trailing dots. -/
def recordClassify (summary : String) : Option (String × String) :=
  match APIM_RE_search summary with
  | some v => some ("APIM", stripVersionToken v)
  | none =>
    match EAH_RE_search summary with
    | some v => some ("EAH", stripVersionToken v)
    | none => none

/-- The two enabler issue types (extract.py line 434). -/
def enabler_issue_types : List String :=
  ["Enabler Version - IOT PF", "Improve Enabler Version - IOT PF"]

/-- `issuetype in enabler_issue_types`. -/
def isEnablerType (ity : String) : Bool := enabler_issue_types.contains ity

/-- `summary.startswith(p)`. -/
def pyStartswith (s p : String) : Bool := p.data.isPrefixOf s.data

/-- `sub in s` for strings. -/
def pyIn (s sub : String) : Bool := listContains s.data sub.data

/-- The `VDP_DS_SSDP`-variant discriminator (extract.py line 468). -/
def vdpDsSsdpDisc (summary : String) : Bool :=
  pyIn summary "VDP_DS_SSDP" || pyIn summary "VDP DS SSDP"

/-- The `VDP_DS_MON`-variant discriminator (extract.py line 470). -/
def vdpDsMonDisc (summary : String) : Bool :=
  pyIn summary "VDP_DS_MON" || pyIn summary "VDP DS MON"

/-- The `VDP_STORE_2` prefix test (extract.py line 477). -/
def vdpStore2Disc (summary : String) : Bool :=
  pyStartswith summary "VDP_STORE_2" || pyStartswith summary "VDP STORE 2" ||
    pyStartswith summary "VDP STORE_2"

/-- Membership of an issue (by its summary and issue type) in each of the
fifteen enabler candidate-key lists filled by the loop at extract.py
lines 436-480, indexed in source order: 0=DOCG, 1=VDR, 2=PATRIC-SSDP,
3=RCZ, 4=SYNAPSE, 5=REFTEL, 6=CALVA, 7=REFSER2, 8=SERING, 9=VDP_PROC,
10=VDP_DS_SSDP, 11=VDP_DS_MON, 12=VDP_DS, 13=VDP_STORE_2, 14=VDP_STORE. -/
def enablerMembership (i : Fin 15) (summary ity : String) : Bool :=
  match i with
  | 0 => isEnablerType ity && pyStartswith summary "DOCG"
  | 1 => isEnablerType ity && pyStartswith summary "VDR"
  | 2 => isEnablerType ity && pyStartswith summary "PATRIC-SSDP-"
  | 3 => isEnablerType ity && pyStartswith summary "SSDP RCZ"
  | 4 => isEnablerType ity && pyStartswith summary "SYNAPSE"
  | 5 => isEnablerType ity && pyStartswith summary "REFTEL"
  | 6 => isEnablerType ity && pyStartswith summary "CALVA"
  | 7 => isEnablerType ity && pyStartswith summary "REFSER2"
  | 8 => isEnablerType ity && pyStartswith summary "SERING"
  | 9 => isEnablerType ity && (pyStartswith summary "VDP_PROC" || pyStartswith summary "VDP PROC")
  | 10 => isEnablerType ity && pyStartswith summary "VDP_DS" && vdpDsSsdpDisc summary
  | 11 => isEnablerType ity && pyStartswith summary "VDP_DS" && !vdpDsSsdpDisc summary
          && vdpDsMonDisc summary
  | 12 => isEnablerType ity && pyStartswith summary "VDP_DS" && !vdpDsSsdpDisc summary
          && !vdpDsMonDisc summary
  | 13 => isEnablerType ity && vdpStore2Disc summary
  | 14 => !(isEnablerType ity && vdpStore2Disc summary) && isEnablerType ity
          && (pyStartswith summary "VDP_STORE" || pyStartswith summary "VDP STORE")

/-- Prefix witnesses: every membership implies one of these summary
prefixes. -/
def enablerPrefixes (i : Fin 15) : List String :=
  match i with
  | 0 => ["DOCG"]
  | 1 => ["VDR"]
  | 2 => ["PATRIC-SSDP-"]
  | 3 => ["SSDP RCZ"]
  | 4 => ["SYNAPSE"]
  | 5 => ["REFTEL"]
  | 6 => ["CALVA"]
  | 7 => ["REFSER2"]
  | 8 => ["SERING"]
  | 9 => ["VDP_PROC", "VDP PROC"]
  | 10 => ["VDP_DS"]
  | 11 => ["VDP_DS"]
  | 12 => ["VDP_DS"]
  | 13 => ["VDP_STORE_2", "VDP STORE 2", "VDP STORE_2"]
  | 14 => ["VDP_STORE", "VDP STORE"]

/-- Pairs of indices whose exclusivity comes from the loop's own
negations (the `elif`/`else` structure) rather than from incompatible
prefixes: the three `VDP_DS` variants and the `VDP_STORE` pair. -/
def samePrefixGroup (i j : Fin 15) : Bool :=
  ((10 : Fin 15) ≤ i && i ≤ 12 && 10 ≤ j && j ≤ 12) || (13 ≤ i && i ≤ 14 && 13 ≤ j && j ≤ 14)

lemma no_common_ext {p q s : List Char}
    (hp : p.isPrefixOf s = true) (hq : q.isPrefixOf s = true)
    (h1 : p.isPrefixOf q = false) (h2 : q.isPrefixOf p = false) : False := by
  have hp' := List.isPrefixOf_iff_prefix.1 hp
  have hq' := List.isPrefixOf_iff_prefix.1 hq
  rcases List.prefix_or_prefix_of_prefix hp' hq' with h | h
  · exact Bool.noConfusion (h1.symm.trans (List.isPrefixOf_iff_prefix.2 h))
  · exact Bool.noConfusion (h2.symm.trans (List.isPrefixOf_iff_prefix.2 h))

lemma enablerMembership_prefix (i : Fin 15) (summary ity : String)
    (h : enablerMembership i summary ity = true) :
    ∃ p ∈ enablerPrefixes i, pyStartswith summary p = true := by
  fin_cases i <;>
    simp only [enablerMembership, enablerPrefixes, vdpStore2Disc, vdpDsSsdpDisc,
      vdpDsMonDisc, Bool.and_eq_true, Bool.or_eq_true, Bool.not_eq_true',
      List.mem_cons, List.mem_singleton, List.not_mem_nil] at h ⊢
  · exact ⟨"DOCG", Or.inl rfl, h.2⟩
  · exact ⟨"VDR", Or.inl rfl, h.2⟩
  · exact ⟨"PATRIC-SSDP-", Or.inl rfl, h.2⟩
  · exact ⟨"SSDP RCZ", Or.inl rfl, h.2⟩
  · exact ⟨"SYNAPSE", Or.inl rfl, h.2⟩
  · exact ⟨"REFTEL", Or.inl rfl, h.2⟩
  · exact ⟨"CALVA", Or.inl rfl, h.2⟩
  · exact ⟨"REFSER2", Or.inl rfl, h.2⟩
  · exact ⟨"SERING", Or.inl rfl, h.2⟩
  · rcases h.2 with h2 | h2
    · exact ⟨"VDP_PROC", Or.inl rfl, h2⟩
    · exact ⟨"VDP PROC", Or.inr (Or.inl rfl), h2⟩
  · exact ⟨"VDP_DS", Or.inl rfl, h.1.2⟩
  · exact ⟨"VDP_DS", Or.inl rfl, h.1.1.2⟩
  · exact ⟨"VDP_DS", Or.inl rfl, h.1.1.2⟩
  · rcases h.2 with (h2 | h2) | h2
    · exact ⟨"VDP_STORE_2", Or.inl rfl, h2⟩
    · exact ⟨"VDP STORE 2", Or.inr (Or.inl rfl), h2⟩
    · exact ⟨"VDP STORE_2", Or.inr (Or.inr (Or.inl rfl)), h2⟩
  · rcases h.2 with h2 | h2
    · exact ⟨"VDP_STORE", Or.inl rfl, h2⟩
    · exact ⟨"VDP STORE", Or.inr (Or.inl rfl), h2⟩

lemma incompat_table : ∀ i j : Fin 15, i ≠ j → samePrefixGroup i j = false →
    ∀ p ∈ enablerPrefixes i, ∀ q ∈ enablerPrefixes j,
      p.data.isPrefixOf q.data = false ∧ q.data.isPrefixOf p.data = false := by decide

/-- Concrete issue summary that the APIM regex matches while it also
starts with the DOCG enabler prefix. -/
def exMixedSummary : String := "DOCG APIM-1.2.3"

/-- C6 (counterexample): an enabler-typed issue whose summary starts with
"DOCG" but also contains an APIM-semver token is classified BOTH into the
APIM/EAH record list (via `APIM_RE.search`) and into the DOCG candidate
list (via the summary-prefix test): the regex branch and the
enabler-prefix branches of the loop are independent `if`s, so the "at
most one family" claim fails across them. -/
theorem issue_in_records_and_docg_list :
    recordClassify exMixedSummary = some ("APIM", "1.2.3") ∧
    enablerMembership 0 exMixedSummary "Enabler Version - IOT PF" = true := by
  refine ⟨by decide, by decide⟩

/-- C6 (amended): the fifteen enabler-prefix candidate lists are pairwise
disjoint — for a fixed summary and issue type, membership in two lists
forces them to be the same list (compound prefixes such as `VDP_STORE_2`
and the `VDP_DS` variants are discriminated before their base prefixes,
and all other list pairs have incompatible prefixes).  The APIM/EAH
regex records, however, are assigned independently and may overlap the
enabler lists. -/
theorem enabler_candidate_lists_disjoint (summary ity : String) (i j : Fin 15)
    (hi : enablerMembership i summary ity = true)
    (hj : enablerMembership j summary ity = true) : i = j := by
  by_contra hne
  cases hsp : samePrefixGroup i j with
  | false =>
    obtain ⟨p, hpmem, hp⟩ := enablerMembership_prefix i summary ity hi
    obtain ⟨q, hqmem, hq⟩ := enablerMembership_prefix j summary ity hj
    obtain ⟨h1, h2⟩ := incompat_table i j hne hsp p hpmem q hqmem
    exact no_common_ext hp hq h1 h2
  | true =>
    fin_cases i <;> fin_cases j <;>
      first
        | exact absurd rfl hne
        | simp_all [enablerMembership, samePrefixGroup]

/-- Witness for C6's amended theorem at a concrete DOCG summary. -/
theorem enabler_candidate_lists_disjoint_witness :
    enablerMembership 0 "DOCG-8.3.0" "Enabler Version - IOT PF" = true ∧
    ((0 : Fin 15) = 0) :=
  ⟨by decide,
   enabler_candidate_lists_disjoint "DOCG-8.3.0" "Enabler Version - IOT PF" 0 0
     (by decide) (by decide)⟩

/-! ## Report parser (summarize.py: parse_blocks / extract_issues)

The intermediate report is parsed with
`header_re = re.compile(r"^=+\s*(.*?)\s*\(([^)]+)\)\s*=+\s*$", re.MULTILINE)`.
We embed the regex engine's backtracking search faithfully: `=+` and the two
`\s*` that precede a backtrackable tail are tried longest-first, the lazy
group `(.*?)` shortest-first, while the `\s*` runs that are immediately
followed by a mandatory non-whitespace literal (`\(` resp. `=+`) are
deterministic, because shortening them leaves a whitespace character where
the literal is required.  `[^)]+` followed by `\)` is likewise deterministic:
the maximal run of non-`)` characters must be non-empty and followed by an
actual `)`. -/

/-- Leftmost index `i` at which `needle` occurs as a substring of `cs`
(`needle.isPrefixOf (cs.drop i)`), as Python regex scanning / `str.find`. -/
def firstOccurIdx (needle cs : List Char) : Option Nat :=
  (List.range (cs.length + 1)).findSome? fun i =>
    if needle.isPrefixOf (cs.drop i) then some i else none

/-- Length of the maximal whitespace run at the head (regex `\s*`, greedy). -/
def wsRun (cs : List Char) : Nat := (cs.takeWhile isPySpace).length

/-- Length of the maximal run of `=` at the head (regex `=+`, greedy). -/
def eqRun (cs : List Char) : Nat := (cs.takeWhile (· = '=')).length

/-- Length of the maximal run of non-newline characters at the head
(upper bound for the lazy group `(.*?)`, whose `.` never matches `\n`). -/
def nonNlRun (cs : List Char) : Nat := (cs.takeWhile (· ≠ '\n')).length

/-- Attempt to match `=+\s*(.*?)\s*\(([^)]+)\)\s*=+\s*$` at the start of the
suffix `cs` (the `^` anchor is checked by the caller).  Returns
`(group1, group2, matchLength)` for the first alternative in Python
backtracking priority order, `none` if the pattern cannot match here. -/
def headerAttempt (cs : List Char) : Option (List Char × List Char × Nat) :=
  let er := eqRun cs
  if er = 0 then none else
  (List.range er).findSome? fun i =>
    let n := er - i
    let mw := wsRun (cs.drop n)
    (List.range (mw + 1)).findSome? fun j =>
      let m := mw - j
      let p2 := n + m
      let gmax := nonNlRun (cs.drop p2)
      (List.range (gmax + 1)).findSome? fun g =>
        let p2g := p2 + g
        let w := wsRun (cs.drop p2g)
        if cs.get? (p2g + w) = some '(' then
          let p3 := p2g + w + 1
          let inter := (cs.drop p3).takeWhile (· ≠ ')')
          if inter = [] then none
          else if cs.get? (p3 + inter.length) = some ')' then
            let p4 := p3 + inter.length + 1
            let p5 := p4 + wsRun (cs.drop p4)
            let er2 := eqRun (cs.drop p5)
            if er2 = 0 then none else
            (List.range er2).findSome? fun k =>
              let p6 := p5 + (er2 - k)
              let tw := wsRun (cs.drop p6)
              (List.range (tw + 1)).findSome? fun j2 =>
                let p7 := p6 + (tw - j2)
                if p7 = cs.length ∨ cs.get? p7 = some '\n' then
                  some ((cs.drop p2).take g, inter, p7)
                else none
          else none
        else none

/-- One match of `header_re.finditer`: the two capture groups and the
absolute start/end offsets of the whole match. -/
structure HeaderMatch where
  group1 : List Char
  group2 : List Char
  mstart : Nat
  mend : Nat
  deriving DecidableEq, Repr

/-- Scanner loop of `finditer`: try each position that satisfies the
`re.MULTILINE` `^` anchor (offset 0 or just after a newline, carried in
`atLS`); on a match, resume immediately after its end.  The scan walks the
remaining suffix `suf` of the document alongside the absolute position
`pos`; `fuel` only bounds the recursion and is ample, since every step
advances the position by at least one. -/
def headerScanAux : Nat → Nat → List Char → Bool → List HeaderMatch
  | 0, _, _, _ => []
  | fuel + 1, pos, suf, atLS =>
    match suf with
    | [] => []
    | c :: rest =>
      if atLS then
        match headerAttempt suf with
        | some (g1, g2, e) =>
            { group1 := g1, group2 := g2, mstart := pos, mend := pos + e } ::
              headerScanAux fuel (pos + e) (suf.drop e) (suf.get? (e - 1) == some '\n')
        | none => headerScanAux fuel (pos + 1) rest (c == '\n')
      else headerScanAux fuel (pos + 1) rest (c == '\n')

/-- All matches of `header_re` in document order
(`list(header_re.finditer(raw))`). -/
def headerFinditer (cs : List Char) : List HeaderMatch :=
  headerScanAux (cs.length + 1) 0 cs true

/-- The fixed list `known_systems` of summarize.py, in source order. -/
def known_systems : List String :=
  ["PATRIC-SSDP", "VDP_DS_SSDP", "VDP_DS_MON", "VDP_STORE_2", "VDP_STORE",
   "VDP_PROC", "VDP_DS", "SYNAPSE", "REFTEL", "REFSER2", "SERING", "CALVA",
   "APIM", "EAH", "DOCG", "VDR", "RCZ"]

/-- Python `str.upper` on the ASCII inputs handled here. -/
def pyUpper (s : String) : String := ⟨s.data.map Char.toUpper⟩

/-- summarize.py `split_header`: strip the header text, find the first known
system that is a case-insensitive prefix, and parse the version remainder
(`strip`, drop leading `[-\s]+`, `strip`, `rstrip "."`). -/
def split_header (header_text : String) : String × String :=
  let header_clean := pyStrip header_text
  match known_systems.find? (fun sys => pyStartswith (pyUpper header_clean) (pyUpper sys)) with
  | some system =>
    let remainder := pyStrip ⟨header_clean.data.drop system.length⟩
    let remainder2 := pyStrip ⟨remainder.data.dropWhile (fun c => c = '-' || isPySpace c)⟩
    (system, if remainder2 = "" then "" else ⟨pyRstripChars (· = '.') remainder2.data⟩)
  | none => ("", "")

/-- Search `^Summary:\s*(.+)$` (MULTILINE) in the body: leftmost line-start
occurrence of `Summary:` whose tail, after a longest-first backtrackable
`\s*`, still holds a non-empty newline-free run (`(.+)` greedy; the maximal
run always satisfies the `$` that follows). -/
def searchSummaryLine (body : List Char) : Option (List Char) :=
  (List.range (body.length + 1)).findSome? fun i =>
    if (i = 0 ∨ body.get? (i - 1) = some '\n')
        ∧ ("Summary:".data).isPrefixOf (body.drop i) then
      let tcs := body.drop (i + 8)
      let wr := wsRun tcs
      (List.range (wr + 1)).findSome? fun j =>
        let run := (tcs.drop (wr - j)).takeWhile (· ≠ '\n')
        if run = [] then none else some run
    else none

/-- summarize.py `infer_version_from_body`.  In every branch where the source
returns `fallback_version or ""`, `fallback_version` is falsy or the literal
`"None"`, and `"None" or ""` is `"None"` itself, so the result is just
`fallback_version`. -/
def infer_version_from_body (system fallback_version : String) (body : String) : String :=
  if fallback_version ≠ "" ∧ fallback_version ≠ "None" then fallback_version
  else
    match searchSummaryLine body.data with
    | none => fallback_version
    | some cap =>
      let summary : String := ⟨pyRstripChars (· = '.') (pyStripChars cap)⟩
      if summary = "" then fallback_version
      else if system = "DOCG" then summary
      else if pyStartswith (pyUpper summary) (pyUpper system) then
        ⟨pyRstripChars (· = '.')
          (pyStripChars ((summary.data.drop system.length).dropWhile
            (fun c => c = '-' || c = ' ')))⟩
      else summary

/-- One parsed block of the intermediate report. -/
structure Block where
  system : String
  version : String
  enabler_key : String
  body : String
  deriving DecidableEq, Repr

/-- Body of the `for i, m in enumerate(matches)` loop of `parse_blocks`: each
block's body runs from the match end to the next match start (or the end of
the document), headers whose system is unknown (`split_header` returned `""`)
are skipped. -/
def blocksFromMatches (cs : List Char) : List HeaderMatch → List Block
  | [] => []
  | m :: rest =>
    let bodyEnd := match rest with
      | m' :: _ => m'.mstart
      | [] => cs.length
    let body : String := ⟨pyStripChars ((cs.drop m.mend).take (bodyEnd - m.mend))⟩
    let sv := split_header (pyStrip ⟨m.group1⟩)
    if sv.1 = "" then blocksFromMatches cs rest
    else
      { system := sv.1,
        version := infer_version_from_body sv.1 sv.2 body,
        enabler_key := ⟨pyStripChars m.group2⟩,
        body := body } :: blocksFromMatches cs rest

/-- summarize.py `parse_blocks`. -/
def parse_blocks (raw : String) : List Block :=
  blocksFromMatches raw.data (headerFinditer raw.data)

/-- Capture of `<marker>\s*(.*)`: the greedy `\s*` takes the maximal
whitespace run (newlines included), the greedy `(.*)` the rest of that
line; both may be empty, so the pattern succeeds at the leftmost
occurrence of the marker. -/
def captureTail (cs : List Char) : List Char :=
  (cs.dropWhile isPySpace).takeWhile (· ≠ '\n')

/-- Python `re.search(marker + r"\s*(.*)", p)`, returning the capture. -/
def searchField (marker : List Char) (p : List Char) : Option (List Char) :=
  (firstOccurIdx marker p).map fun i => captureTail (p.drop (i + marker.length))

/-- Python `re.search(r"(Owner|Assignee):\s*(.*)", p)`: at each scan position
the alternation tries `Owner` before `Assignee`. -/
def searchOwner (p : List Char) : Option (List Char) :=
  (List.range (p.length + 1)).findSome? fun i =>
    if ("Owner:".data).isPrefixOf (p.drop i) then
      some (captureTail (p.drop (i + 6)))
    else if ("Assignee:".data).isPrefixOf (p.drop i) then
      some (captureTail (p.drop (i + 9)))
    else none

/-- The six fields extracted from one `Issue:` sub-block. -/
structure IssueFields where
  summary : String
  issue_type : String
  status : String
  owner : String
  created : String
  deploy_date : String
  deriving DecidableEq, Repr

/-- The `if m: field = m.group(..).strip()` idiom: empty string when the
pattern did not match. -/
def fieldOrEmpty (r : Option (List Char)) : String :=
  match r with
  | some cap => ⟨pyStripChars cap⟩
  | none => ""

/-- Field extraction for one sub-block `p` of `extract_issues`. -/
def extractIssueFields (p : List Char) : IssueFields :=
  { summary := fieldOrEmpty (searchField "Summary:".data p)
    issue_type := fieldOrEmpty (searchField "Issue Type:".data p)
    status := fieldOrEmpty (searchField "Status:".data p)
    owner := fieldOrEmpty (searchOwner p)
    created := fieldOrEmpty (searchField "Created:".data p)
    deploy_date := fieldOrEmpty (searchField "Deploy Date:".data p) }

/-- Python `str.split(sep)` for a non-empty separator, fuelled: cut at the
leftmost occurrence and recurse on the rest.  Any fuel of at least
`cs.length + 1` is ample, because each cut removes at least the separator. -/
def splitSubAux (sep : List Char) : Nat → List Char → List (List Char)
  | 0, cs => [cs]
  | fuel + 1, cs =>
    match firstOccurIdx sep cs with
    | none => [cs]
    | some i => cs.take i :: splitSubAux sep fuel (cs.drop (i + sep.length))

/-- Python `cs.split(sep)` for a non-empty separator. -/
def splitSub (sep cs : List Char) : List (List Char) :=
  splitSubAux sep (cs.length + 1) cs

/-- summarize.py `extract_issues`: split the body on `Issue:`, discard the
prefix before the first separator (`parts[1:]`), extract the six fields of
every remaining sub-block. -/
def extract_issues (body : String) : List IssueFields :=
  ((splitSub "Issue:".data body.data).tail).map extractIssueFields

lemma firstOccurIdx_eq_none_iff (needle cs : List Char) :
    firstOccurIdx needle cs = none ↔
      ∀ i, i ≤ cs.length → needle.isPrefixOf (cs.drop i) = false := by
  unfold firstOccurIdx
  rw [List.findSome?_eq_none_iff]
  constructor
  · intro h i hi
    have h2 := h i (List.mem_range.mpr (Nat.lt_succ_of_le hi))
    cases hp : needle.isPrefixOf (cs.drop i)
    · rfl
    · simp [hp] at h2
  · intro h i hi
    rw [h i (Nat.lt_succ_iff.mp (List.mem_range.mp hi))]
    simp

/-- C8: report parsing degrades gracefully.  In any `Issue:` sub-block, each
field whose marker pattern does not occur anywhere in the sub-block comes out
as the empty string (the owner field, when neither `Owner:` nor `Assignee:`
occurs); the totally empty document yields an empty block list and an empty
issue list; and all the parsing functions are total Lean functions, so no
input can raise an exception. -/
theorem report_parser_degrades_gracefully (p : List Char) :
    (firstOccurIdx "Summary:".data p = none → (extractIssueFields p).summary = "")
    ∧ (firstOccurIdx "Issue Type:".data p = none → (extractIssueFields p).issue_type = "")
    ∧ (firstOccurIdx "Status:".data p = none → (extractIssueFields p).status = "")
    ∧ (firstOccurIdx "Owner:".data p = none → firstOccurIdx "Assignee:".data p = none →
        (extractIssueFields p).owner = "")
    ∧ (firstOccurIdx "Created:".data p = none → (extractIssueFields p).created = "")
    ∧ (firstOccurIdx "Deploy Date:".data p = none → (extractIssueFields p).deploy_date = "")
    ∧ parse_blocks "" = [] ∧ extract_issues "" = [] := by
  refine ⟨?_, ?_, ?_, ?_, ?_, ?_, rfl, rfl⟩
  · intro h; simp [extractIssueFields, searchField, fieldOrEmpty, h]
  · intro h; simp [extractIssueFields, searchField, fieldOrEmpty, h]
  · intro h; simp [extractIssueFields, searchField, fieldOrEmpty, h]
  · intro h1 h2
    have ho : searchOwner p = none := by
      unfold searchOwner
      rw [List.findSome?_eq_none_iff]
      intro i hi
      have hle := Nat.lt_succ_iff.mp (List.mem_range.mp hi)
      rw [(firstOccurIdx_eq_none_iff _ _).mp h1 i hle,
          (firstOccurIdx_eq_none_iff _ _).mp h2 i hle]
      simp
    simp [extractIssueFields, fieldOrEmpty, ho]
  · intro h; simp [extractIssueFields, searchField, fieldOrEmpty, h]
  · intro h; simp [extractIssueFields, searchField, fieldOrEmpty, h]

/-- Witness for C8 at a concrete marker-free sub-block. -/
theorem report_parser_degrades_gracefully_witness :
    (extractIssueFields "hello".data).summary = ""
    ∧ (extractIssueFields "hello".data).owner = ""
    ∧ parse_blocks "" = [] :=
  ⟨(report_parser_degrades_gracefully "hello".data).1 (by decide),
   (report_parser_degrades_gracefully "hello".data).2.2.2.1 (by decide) (by decide),
   (report_parser_degrades_gracefully "hello".data).2.2.2.2.2.2.1⟩

lemma split_header_fst_mem (h : String) :
    (split_header h).1 = "" ∨ (split_header h).1 ∈ known_systems := by
  simp only [split_header]
  cases hf : known_systems.find?
      (fun sys => pyStartswith (pyUpper (pyStrip h)) (pyUpper sys)) with
  | none => exact Or.inl rfl
  | some s => exact Or.inr (List.mem_of_find?_eq_some hf)

lemma blocksFromMatches_system (cs : List Char) :
    ∀ (ms : List HeaderMatch) (b : Block), b ∈ blocksFromMatches cs ms →
      b.system ∈ known_systems ∧ b.system ≠ "" := by
  intro ms
  induction ms with
  | nil => intro b hb; simp [blocksFromMatches] at hb
  | cons m rest ih =>
    intro b hb
    simp only [blocksFromMatches] at hb
    by_cases hs : (split_header (pyStrip ⟨m.group1⟩)).1 = ""
    · rw [if_pos hs] at hb; exact ih b hb
    · rw [if_neg hs] at hb
      rcases List.mem_cons.mp hb with hb | hb
      · subst hb
        refine ⟨?_, hs⟩
        rcases split_header_fst_mem (pyStrip ⟨m.group1⟩) with h | h
        · exact absurd h hs
        · exact h
      · exact ih b hb

/-- C9: every block produced by `parse_blocks` carries a system drawn from the
fixed list of 17 known family identifiers, and never the empty string: a
header whose text does not start (case-insensitively) with a known family
makes `split_header` return `("", "")`, and the loop silently skips it. -/
theorem parse_blocks_known_systems (raw : String) :
    known_systems.length = 17 ∧
    ∀ b ∈ parse_blocks raw, b.system ∈ known_systems ∧ b.system ≠ "" :=
  ⟨rfl, fun b hb => blocksFromMatches_system raw.data (headerFinditer raw.data) b hb⟩

def exReportRaw : String := "=== APIM 1.2.3 (APIM-1) ===\nIssue: X\n"

def exReportBlock : Block :=
  { system := "APIM", version := "1.2.3", enabler_key := "APIM-1", body := "Issue: X" }

/-- Witness for C9 at a concrete report document. -/
theorem parse_blocks_known_systems_witness :
    exReportBlock ∈ parse_blocks exReportRaw ∧
    exReportBlock.system ∈ known_systems ∧ exReportBlock.system ≠ "" :=
  ⟨by decide, (parse_blocks_known_systems exReportRaw).2 exReportBlock (by decide)⟩

/-! ## Report serializer (extract.py lines 1511-2233, `out_lines`)

Record fields absent in the Jira payload are modelled as `""` (the
serializer reads every field through `d.get(...) or ""` or guards it with a
truthiness test, so `None` and `""` are indistinguishable to it). -/

/-- The lines appended for one linked issue (identical in all 16 groups);
the linked summary has newlines replaced by spaces and is stripped. -/
def linkedLines (l : LinkedIssue) : List String :=
  ["Issue: " ++ l.key,
   "Summary: " ++ ⟨pyStripChars (l.summary.data.map fun c => if c = '\n' then ' ' else c)⟩,
   "Status: " ++ l.status]
  ++ (if l.assignee ≠ "" then ["Owner: " ++ l.assignee] else [])
  ++ (if l.issuetype ≠ "" then ["Issue Type: " ++ l.issuetype] else [])
  ++ (if l.created ≠ "" then ["Created: " ++ l.created] else [])
  ++ [""]

/-- The `if linked: ... else: "No linked issues found."` section. -/
def linkedSection (linked : List LinkedIssue) : List String :=
  if linked = [] then ["No linked issues found.", ""]
  else ["Linked issues:", ""] ++ (linked.map linkedLines).flatten

/-- The lines of one block after its header line (identical in all 16
groups): blank, Issue/Summary/Status, the three optional fields, blank,
linked section, blank. -/
def issueBodyLines (key summary status assignee issuetype deploy_date : String)
    (linked : List LinkedIssue) : List String :=
  ["", "Issue: " ++ key, "Summary: " ++ summary, "Status: " ++ status]
  ++ (if assignee ≠ "" then ["Owner: " ++ assignee] else [])
  ++ (if issuetype ≠ "" then ["Issue Type: " ++ issuetype] else [])
  ++ (if deploy_date ≠ "" then ["Deploy Date: " ++ deploy_date] else [])
  ++ [""] ++ linkedSection linked ++ [""]

/-- `f"======= {header_name} ({key}) ======="`. -/
def headerLine (header_name key : String) : String :=
  "======= " ++ header_name ++ " (" ++ key ++ ") ======="

/-- Header name `f"{name}-{ver}" if ver else name` with a fixed or
defaulted display name. -/
def dashHeaderName (name ver : String) : String :=
  if ver ≠ "" then name ++ "-" ++ ver else name

/-- Header name for the DOCG / VDR / VDP_PROC groups, whose display name is
`d.get("enabler_name") or <default>`. -/
def namedHeaderName (deflt : String) (r : EnablerRec) : String :=
  dashHeaderName (if r.enabler_name ≠ "" then r.enabler_name else deflt) r.enabler_version

/-- Header name for groups with a hard-coded display name (PATRIC-SSDP,
RCZ, SYNAPSE, REFTEL, VDP_DS, VDP_DS_SSDP, VDP_DS_MON, VDP_STORE,
VDP_STORE_2). -/
def fixedHeaderName (fam : String) (r : EnablerRec) : String :=
  dashHeaderName fam r.enabler_version

/-- Header name for CALVA and REFSER2: the version is used verbatim
(it already contains the family prefix), the family name only as an
empty-version fallback. -/
def verbatimHeaderName (fam : String) (r : EnablerRec) : String :=
  if r.enabler_version ≠ "" then r.enabler_version else fam

/-- Header name for SERING: the version verbatim when it already starts
with `SERING`, otherwise prefixed as in the fixed-name groups. -/
def seringHeaderName (r : EnablerRec) : String :=
  if pyStartswith r.enabler_version "SERING" then r.enabler_version
  else dashHeaderName "SERING" r.enabler_version

/-- One APIM/EAH block: header `{system}-{version}` plus the common body. -/
def apimBlockLines (r : ApimRec) : List String :=
  headerLine (r.system ++ "-" ++ r.version) r.key ::
    issueBodyLines r.key r.summary r.status r.assignee r.issuetype r.deploy_date r.linked

/-- One enabler block; `trailNl` reproduces the stray `\n` inside the
header line of the VDP_PROC / VDP_DS / VDP_DS_SSDP / VDP_DS_MON groups. -/
def enablerBlockLines (headerName : String) (trailNl : Bool) (r : EnablerRec) : List String :=
  (headerLine headerName r.key ++ (if trailNl then "\n" else "")) ::
    issueBodyLines r.key r.summary r.status r.assignee r.issuetype r.deploy_date r.linked

/-- One non-APIM/EAH group: records sorted by the raw version string, then
serialized block by block. -/
def groupLines (hn : EnablerRec → String) (trailNl : Bool) (rs : List EnablerRec) :
    List String :=
  ((enablerSorted rs).map (fun r => enablerBlockLines (hn r) trailNl r)).flatten

/-- The per-family record lists feeding the serializer, in the order the
classification loop fills them. -/
structure Selection where
  apim_eah : List ApimRec := []
  docg : List EnablerRec := []
  vdr : List EnablerRec := []
  patric : List EnablerRec := []
  rcz : List EnablerRec := []
  synapse : List EnablerRec := []
  reftel : List EnablerRec := []
  calva : List EnablerRec := []
  refser2 : List EnablerRec := []
  sering : List EnablerRec := []
  vdp_proc : List EnablerRec := []
  vdp_ds : List EnablerRec := []
  vdp_ds_ssdp : List EnablerRec := []
  vdp_ds_mon : List EnablerRec := []
  vdp_store : List EnablerRec := []
  vdp_store_2 : List EnablerRec := []
  deriving DecidableEq, Repr

/-- extract.py `out_lines`: the 16 block groups in source order. -/
def out_lines (sel : Selection) : List String :=
  ((apimEahSorted sel.apim_eah).map apimBlockLines).flatten
  ++ groupLines (namedHeaderName "DOCG") false sel.docg
  ++ groupLines (namedHeaderName "VDR") false sel.vdr
  ++ groupLines (fixedHeaderName "PATRIC-SSDP") false sel.patric
  ++ groupLines (fixedHeaderName "RCZ") false sel.rcz
  ++ groupLines (fixedHeaderName "SYNAPSE") false sel.synapse
  ++ groupLines (fixedHeaderName "REFTEL") false sel.reftel
  ++ groupLines (verbatimHeaderName "CALVA") false sel.calva
  ++ groupLines (verbatimHeaderName "REFSER2") false sel.refser2
  ++ groupLines seringHeaderName false sel.sering
  ++ groupLines (namedHeaderName "VDP_PROC") true sel.vdp_proc
  ++ groupLines (fixedHeaderName "VDP_DS") true sel.vdp_ds
  ++ groupLines (fixedHeaderName "VDP_DS_SSDP") true sel.vdp_ds_ssdp
  ++ groupLines (fixedHeaderName "VDP_DS_MON") true sel.vdp_ds_mon
  ++ groupLines (fixedHeaderName "VDP_STORE") false sel.vdp_store
  ++ groupLines (fixedHeaderName "VDP_STORE_2") false sel.vdp_store_2

/-- `content = "\n".join(out_lines).rstrip() + ("\n" if out_lines else "")`,
the text written to the intermediate report file. -/
def report_content (sel : Selection) : String :=
  let ls := out_lines sel
  String.mk (pyRstripChars isPySpace (String.intercalate "\n" ls).data)
    ++ (if ls = [] then "" else "\n")

/-! ## Round-trip of rendered headers through `split_header` -/

/-- Version strings that `split_header`'s remainder normalization leaves
untouched: non-empty, not starting with `-` or whitespace (nothing for the
`^[-\s]+` substitution or the strips to eat on the left), not ending in `.`
or whitespace (nothing for `rstrip` to eat on the right), and not the
literal `"None"` (which `infer_version_from_body` treats as absent). -/
def cleanVersion (v : String) : Bool :=
  !v.data.isEmpty
  && v.data.head?.all (fun c => !(c == '-' || isPySpace c))
  && v.data.getLast?.all (fun c => !(c == '.' || isPySpace c))
  && v != "None"

lemma pyStripChars_eq_self {l : List Char}
    (h1 : ∀ c, l.head? = some c → isPySpace c = false)
    (h2 : ∀ c, l.getLast? = some c → isPySpace c = false) :
    pyStripChars l = l := by
  unfold pyStripChars
  have hd : l.dropWhile isPySpace = l := by
    cases l with
    | nil => rfl
    | cons a as => exact dropWhile_cons_neg (by simp [h1 a rfl])
  rw [hd]
  cases hr : l.reverse with
  | nil =>
    have hl : l = [] := List.reverse_eq_nil_iff.mp hr
    subst hl; rfl
  | cons b t =>
    have hb : l.getLast? = some b := by
      rw [← List.head?_reverse, hr]; rfl
    have hnb : ¬ isPySpace b := by simp [h2 b hb]
    rw [dropWhile_cons_neg hnb, ← hr, List.reverse_reverse]

lemma pyRstripChars_eq_self {p : Char → Bool} {l : List Char}
    (h : ∀ c, l.getLast? = some c → p c = false) :
    pyRstripChars p l = l := by
  unfold pyRstripChars
  cases hr : l.reverse with
  | nil =>
    have hl : l = [] := List.reverse_eq_nil_iff.mp hr
    subst hl; rfl
  | cons b t =>
    have hb : l.getLast? = some b := by
      rw [← List.head?_reverse, hr]; rfl
    have hnb : ¬ p b := by simp [h b hb]
    rw [dropWhile_cons_neg hnb, ← hr, List.reverse_reverse]

lemma isPrefixOf_append_false {p l1 l2 : List Char}
    (h1 : l1.isPrefixOf p = false) (h2 : p.isPrefixOf l1 = false) :
    p.isPrefixOf (l1 ++ l2) = false := by
  cases hp : p.isPrefixOf (l1 ++ l2) with
  | false => rfl
  | true =>
    rcases List.prefix_or_prefix_of_prefix (List.isPrefixOf_iff_prefix.mp hp)
        (List.prefix_append l1 l2) with h | h
    · rw [List.isPrefixOf_iff_prefix.mpr h] at h2; cases h2
    · rw [List.isPrefixOf_iff_prefix.mpr h] at h1; cases h1

lemma isPrefixOf_append_left {p l1 l2 : List Char} (h : p.isPrefixOf l1 = true) :
    p.isPrefixOf (l1 ++ l2) = true :=
  List.isPrefixOf_iff_prefix.mpr
    ((List.isPrefixOf_iff_prefix.mp h).trans (List.prefix_append l1 l2))

/-- A rendered header name `l1 ++ mv` does not start with `sys` (upper-cased)
when `l1` and the upper-cased `sys` disagree as prefixes of one another. -/
lemma startswith_block_false (l1 mv : List Char) (sys : String)
    (h1 : l1.isPrefixOf (pyUpper sys).data = false)
    (h2 : (pyUpper sys).data.isPrefixOf l1 = false) :
    pyStartswith (String.mk (l1 ++ mv)) (pyUpper sys) = false :=
  isPrefixOf_append_false h1 h2

lemma startswith_block_true (l1 mv : List Char) (sys : String)
    (h : (pyUpper sys).data.isPrefixOf l1 = true) :
    pyStartswith (String.mk (l1 ++ mv)) (pyUpper sys) = true :=
  isPrefixOf_append_left h

lemma find?_cons_false {α : Type} {p : α → Bool} {a : α} {l : List α}
    (h : p a = false) : (a :: l).find? p = l.find? p := by
  simp [List.find?, h]

lemma find?_cons_true {α : Type} {p : α → Bool} {a : α} {l : List α}
    (h : p a = true) : (a :: l).find? p = some a := by
  simp [List.find?, h]

lemma find?_step {α : Type} {p : α → Bool} {a : α} {l : List α} {r : Option α}
    (h : p a = false) (ih : l.find? p = r) : (a :: l).find? p = r :=
  (find?_cons_false h).trans ih

lemma find_known_prefixed (fam : String) (hfam : fam ∈ known_systems) (mv : List Char) :
    known_systems.find?
      (fun sys => pyStartswith (String.mk ((fam.data ++ ['-']) ++ mv)) (pyUpper sys))
      = some fam := by
  fin_cases hfam
  · exact find?_cons_true (startswith_block_true _ _ _ (by decide))
  · exact find?_step (startswith_block_false _ _ _ (by decide) (by decide))
      (find?_cons_true (startswith_block_true _ _ _ (by decide)))
  · exact find?_step (startswith_block_false _ _ _ (by decide) (by decide))
      (find?_step (startswith_block_false _ _ _ (by decide) (by decide))
      (find?_cons_true (startswith_block_true _ _ _ (by decide))))
  · exact find?_step (startswith_block_false _ _ _ (by decide) (by decide))
      (find?_step (startswith_block_false _ _ _ (by decide) (by decide))
      (find?_step (startswith_block_false _ _ _ (by decide) (by decide))
      (find?_cons_true (startswith_block_true _ _ _ (by decide)))))
  · exact find?_step (startswith_block_false _ _ _ (by decide) (by decide))
      (find?_step (startswith_block_false _ _ _ (by decide) (by decide))
      (find?_step (startswith_block_false _ _ _ (by decide) (by decide))
      (find?_step (startswith_block_false _ _ _ (by decide) (by decide))
      (find?_cons_true (startswith_block_true _ _ _ (by decide))))))
  · exact find?_step (startswith_block_false _ _ _ (by decide) (by decide))
      (find?_step (startswith_block_false _ _ _ (by decide) (by decide))
      (find?_step (startswith_block_false _ _ _ (by decide) (by decide))
      (find?_step (startswith_block_false _ _ _ (by decide) (by decide))
      (find?_step (startswith_block_false _ _ _ (by decide) (by decide))
      (find?_cons_true (startswith_block_true _ _ _ (by decide)))))))
  · exact find?_step (startswith_block_false _ _ _ (by decide) (by decide))
      (find?_step (startswith_block_false _ _ _ (by decide) (by decide))
      (find?_step (startswith_block_false _ _ _ (by decide) (by decide))
      (find?_step (startswith_block_false _ _ _ (by decide) (by decide))
      (find?_step (startswith_block_false _ _ _ (by decide) (by decide))
      (find?_step (startswith_block_false _ _ _ (by decide) (by decide))
      (find?_cons_true (startswith_block_true _ _ _ (by decide))))))))
  · exact find?_step (startswith_block_false _ _ _ (by decide) (by decide))
      (find?_step (startswith_block_false _ _ _ (by decide) (by decide))
      (find?_step (startswith_block_false _ _ _ (by decide) (by decide))
      (find?_step (startswith_block_false _ _ _ (by decide) (by decide))
      (find?_step (startswith_block_false _ _ _ (by decide) (by decide))
      (find?_step (startswith_block_false _ _ _ (by decide) (by decide))
      (find?_step (startswith_block_false _ _ _ (by decide) (by decide))
      (find?_cons_true (startswith_block_true _ _ _ (by decide)))))))))
  · exact find?_step (startswith_block_false _ _ _ (by decide) (by decide))
      (find?_step (startswith_block_false _ _ _ (by decide) (by decide))
      (find?_step (startswith_block_false _ _ _ (by decide) (by decide))
      (find?_step (startswith_block_false _ _ _ (by decide) (by decide))
      (find?_step (startswith_block_false _ _ _ (by decide) (by decide))
      (find?_step (startswith_block_false _ _ _ (by decide) (by decide))
      (find?_step (startswith_block_false _ _ _ (by decide) (by decide))
      (find?_step (startswith_block_false _ _ _ (by decide) (by decide))
      (find?_cons_true (startswith_block_true _ _ _ (by decide))))))))))
  · exact find?_step (startswith_block_false _ _ _ (by decide) (by decide))
      (find?_step (startswith_block_false _ _ _ (by decide) (by decide))
      (find?_step (startswith_block_false _ _ _ (by decide) (by decide))
      (find?_step (startswith_block_false _ _ _ (by decide) (by decide))
      (find?_step (startswith_block_false _ _ _ (by decide) (by decide))
      (find?_step (startswith_block_false _ _ _ (by decide) (by decide))
      (find?_step (startswith_block_false _ _ _ (by decide) (by decide))
      (find?_step (startswith_block_false _ _ _ (by decide) (by decide))
      (find?_step (startswith_block_false _ _ _ (by decide) (by decide))
      (find?_cons_true (startswith_block_true _ _ _ (by decide)))))))))))
  · exact find?_step (startswith_block_false _ _ _ (by decide) (by decide))
      (find?_step (startswith_block_false _ _ _ (by decide) (by decide))
      (find?_step (startswith_block_false _ _ _ (by decide) (by decide))
      (find?_step (startswith_block_false _ _ _ (by decide) (by decide))
      (find?_step (startswith_block_false _ _ _ (by decide) (by decide))
      (find?_step (startswith_block_false _ _ _ (by decide) (by decide))
      (find?_step (startswith_block_false _ _ _ (by decide) (by decide))
      (find?_step (startswith_block_false _ _ _ (by decide) (by decide))
      (find?_step (startswith_block_false _ _ _ (by decide) (by decide))
      (find?_step (startswith_block_false _ _ _ (by decide) (by decide))
      (find?_cons_true (startswith_block_true _ _ _ (by decide))))))))))))
  · exact find?_step (startswith_block_false _ _ _ (by decide) (by decide))
      (find?_step (startswith_block_false _ _ _ (by decide) (by decide))
      (find?_step (startswith_block_false _ _ _ (by decide) (by decide))
      (find?_step (startswith_block_false _ _ _ (by decide) (by decide))
      (find?_step (startswith_block_false _ _ _ (by decide) (by decide))
      (find?_step (startswith_block_false _ _ _ (by decide) (by decide))
      (find?_step (startswith_block_false _ _ _ (by decide) (by decide))
      (find?_step (startswith_block_false _ _ _ (by decide) (by decide))
      (find?_step (startswith_block_false _ _ _ (by decide) (by decide))
      (find?_step (startswith_block_false _ _ _ (by decide) (by decide))
      (find?_step (startswith_block_false _ _ _ (by decide) (by decide))
      (find?_cons_true (startswith_block_true _ _ _ (by decide)))))))))))))
  · exact find?_step (startswith_block_false _ _ _ (by decide) (by decide))
      (find?_step (startswith_block_false _ _ _ (by decide) (by decide))
      (find?_step (startswith_block_false _ _ _ (by decide) (by decide))
      (find?_step (startswith_block_false _ _ _ (by decide) (by decide))
      (find?_step (startswith_block_false _ _ _ (by decide) (by decide))
      (find?_step (startswith_block_false _ _ _ (by decide) (by decide))
      (find?_step (startswith_block_false _ _ _ (by decide) (by decide))
      (find?_step (startswith_block_false _ _ _ (by decide) (by decide))
      (find?_step (startswith_block_false _ _ _ (by decide) (by decide))
      (find?_step (startswith_block_false _ _ _ (by decide) (by decide))
      (find?_step (startswith_block_false _ _ _ (by decide) (by decide))
      (find?_step (startswith_block_false _ _ _ (by decide) (by decide))
      (find?_cons_true (startswith_block_true _ _ _ (by decide))))))))))))))
  · exact find?_step (startswith_block_false _ _ _ (by decide) (by decide))
      (find?_step (startswith_block_false _ _ _ (by decide) (by decide))
      (find?_step (startswith_block_false _ _ _ (by decide) (by decide))
      (find?_step (startswith_block_false _ _ _ (by decide) (by decide))
      (find?_step (startswith_block_false _ _ _ (by decide) (by decide))
      (find?_step (startswith_block_false _ _ _ (by decide) (by decide))
      (find?_step (startswith_block_false _ _ _ (by decide) (by decide))
      (find?_step (startswith_block_false _ _ _ (by decide) (by decide))
      (find?_step (startswith_block_false _ _ _ (by decide) (by decide))
      (find?_step (startswith_block_false _ _ _ (by decide) (by decide))
      (find?_step (startswith_block_false _ _ _ (by decide) (by decide))
      (find?_step (startswith_block_false _ _ _ (by decide) (by decide))
      (find?_step (startswith_block_false _ _ _ (by decide) (by decide))
      (find?_cons_true (startswith_block_true _ _ _ (by decide)))))))))))))))
  · exact find?_step (startswith_block_false _ _ _ (by decide) (by decide))
      (find?_step (startswith_block_false _ _ _ (by decide) (by decide))
      (find?_step (startswith_block_false _ _ _ (by decide) (by decide))
      (find?_step (startswith_block_false _ _ _ (by decide) (by decide))
      (find?_step (startswith_block_false _ _ _ (by decide) (by decide))
      (find?_step (startswith_block_false _ _ _ (by decide) (by decide))
      (find?_step (startswith_block_false _ _ _ (by decide) (by decide))
      (find?_step (startswith_block_false _ _ _ (by decide) (by decide))
      (find?_step (startswith_block_false _ _ _ (by decide) (by decide))
      (find?_step (startswith_block_false _ _ _ (by decide) (by decide))
      (find?_step (startswith_block_false _ _ _ (by decide) (by decide))
      (find?_step (startswith_block_false _ _ _ (by decide) (by decide))
      (find?_step (startswith_block_false _ _ _ (by decide) (by decide))
      (find?_step (startswith_block_false _ _ _ (by decide) (by decide))
      (find?_cons_true (startswith_block_true _ _ _ (by decide))))))))))))))))
  · exact find?_step (startswith_block_false _ _ _ (by decide) (by decide))
      (find?_step (startswith_block_false _ _ _ (by decide) (by decide))
      (find?_step (startswith_block_false _ _ _ (by decide) (by decide))
      (find?_step (startswith_block_false _ _ _ (by decide) (by decide))
      (find?_step (startswith_block_false _ _ _ (by decide) (by decide))
      (find?_step (startswith_block_false _ _ _ (by decide) (by decide))
      (find?_step (startswith_block_false _ _ _ (by decide) (by decide))
      (find?_step (startswith_block_false _ _ _ (by decide) (by decide))
      (find?_step (startswith_block_false _ _ _ (by decide) (by decide))
      (find?_step (startswith_block_false _ _ _ (by decide) (by decide))
      (find?_step (startswith_block_false _ _ _ (by decide) (by decide))
      (find?_step (startswith_block_false _ _ _ (by decide) (by decide))
      (find?_step (startswith_block_false _ _ _ (by decide) (by decide))
      (find?_step (startswith_block_false _ _ _ (by decide) (by decide))
      (find?_step (startswith_block_false _ _ _ (by decide) (by decide))
      (find?_cons_true (startswith_block_true _ _ _ (by decide)))))))))))))))))
  · exact find?_step (startswith_block_false _ _ _ (by decide) (by decide))
      (find?_step (startswith_block_false _ _ _ (by decide) (by decide))
      (find?_step (startswith_block_false _ _ _ (by decide) (by decide))
      (find?_step (startswith_block_false _ _ _ (by decide) (by decide))
      (find?_step (startswith_block_false _ _ _ (by decide) (by decide))
      (find?_step (startswith_block_false _ _ _ (by decide) (by decide))
      (find?_step (startswith_block_false _ _ _ (by decide) (by decide))
      (find?_step (startswith_block_false _ _ _ (by decide) (by decide))
      (find?_step (startswith_block_false _ _ _ (by decide) (by decide))
      (find?_step (startswith_block_false _ _ _ (by decide) (by decide))
      (find?_step (startswith_block_false _ _ _ (by decide) (by decide))
      (find?_step (startswith_block_false _ _ _ (by decide) (by decide))
      (find?_step (startswith_block_false _ _ _ (by decide) (by decide))
      (find?_step (startswith_block_false _ _ _ (by decide) (by decide))
      (find?_step (startswith_block_false _ _ _ (by decide) (by decide))
      (find?_step (startswith_block_false _ _ _ (by decide) (by decide))
      (find?_cons_true (startswith_block_true _ _ _ (by decide))))))))))))))))))

set_option maxRecDepth 4096 in
/-- A rendered header name `<fam>-<ver>` with a known family and a clean
version parses back to exactly `(fam, ver)`: the serializer's dash is
consumed by the `^[-\s]+` substitution and nothing else is normalized
away. -/
lemma split_header_prefixed (fam : String) (hfam : fam ∈ known_systems)
    (v : String) (hv : cleanVersion v = true) :
    split_header (fam ++ "-" ++ v) = (fam, v) := by
  have hfb : ((fam.data.isEmpty == false)
      && fam.data.head?.all (fun c => !isPySpace c)
      && (fam.data.map Char.toUpper == fam.data)) = true := by
    fin_cases hfam <;> decide
  simp only [Bool.and_eq_true, beq_iff_eq] at hfb
  obtain ⟨⟨hfne, hfhead⟩, hfup⟩ := hfb
  obtain ⟨vd⟩ := v
  simp only [cleanVersion, Bool.and_eq_true] at hv
  obtain ⟨⟨⟨hv1, hv2⟩, hv3⟩, hv4⟩ := hv
  cases vd with
  | nil => simp at hv1
  | cons c cs =>
  have hc' : (!(c == '-' || isPySpace c)) = true := hv2
  simp only [Bool.not_eq_true', Bool.or_eq_false_iff] at hc'
  obtain ⟨hcd, hcw⟩ := hc'
  have hcne : c ≠ '-' := by simpa using hcd
  have hvlast : ∀ d, (c :: cs).getLast? = some d →
      ((d == '.') || isPySpace d) = false := by
    intro d hd
    have h3 := hv3
    rw [hd] at h3
    simpa using h3
  have hvlastw : ∀ d, (c :: cs).getLast? = some d → isPySpace d = false := by
    intro d hd
    have := hvlast d hd
    simp only [Bool.or_eq_false_iff] at this
    exact this.2
  have hdash : ("-" : String).data = ['-'] := rfl
  have hHdata : (fam ++ "-" ++ String.mk (c :: cs)).data
      = (fam.data ++ ['-']) ++ c :: cs := by
    rw [String.data_append, String.data_append, hdash]
  have hlastH : ∀ d, ((fam.data ++ ['-']) ++ c :: cs).getLast? = some d →
      isPySpace d = false := by
    intro d hd
    rw [List.getLast?_append_of_ne_nil _ (List.cons_ne_nil c cs)] at hd
    exact hvlastw d hd
  have hheadH : ∀ d, ((fam.data ++ ['-']) ++ c :: cs).head? = some d →
      isPySpace d = false := by
    intro d hd
    cases hfd : fam.data with
    | nil => exact absurd (List.isEmpty_iff.mpr hfd) (by simp [hfne])
    | cons f0 fr =>
      rw [hfd] at hd
      simp only [List.cons_append, List.head?_cons, Option.some.injEq] at hd
      subst hd
      have := hfhead
      rw [hfd] at this
      simpa using this
  have hstripH : pyStrip (fam ++ "-" ++ String.mk (c :: cs))
      = fam ++ "-" ++ String.mk (c :: cs) := by
    show String.mk (pyStripChars (fam ++ "-" ++ String.mk (c :: cs)).data)
      = fam ++ "-" ++ String.mk (c :: cs)
    rw [hHdata, pyStripChars_eq_self hheadH hlastH, ← hHdata]
  have htu : Char.toUpper '-' = '-' := by decide
  have hup : pyUpper (fam ++ "-" ++ String.mk (c :: cs))
      = String.mk ((fam.data ++ ['-']) ++ (c :: cs).map Char.toUpper) := by
    show String.mk ((fam ++ "-" ++ String.mk (c :: cs)).data.map Char.toUpper)
      = String.mk ((fam.data ++ ['-']) ++ (c :: cs).map Char.toUpper)
    rw [hHdata, List.map_append, List.map_append, hfup]
    simp [htu]
  simp only [split_header]
  simp only [hstripH]
  simp only [hup]
  rw [find_known_prefixed fam hfam ((c :: cs).map Char.toUpper)]
  have hdrop : List.drop fam.length (fam ++ "-" ++ String.mk (c :: cs)).data
      = '-' :: c :: cs := by
    rw [hHdata, show fam.length = fam.data.length from rfl,
      List.drop_append_of_le_length
        (show fam.data.length ≤ (fam.data ++ ['-']).length by simp),
      List.drop_left]
    rfl
  have hstrip2 : pyStripChars ('-' :: c :: cs) = '-' :: c :: cs := by
    refine pyStripChars_eq_self ?_ ?_
    · intro d hd
      simp only [List.head?_cons, Option.some.injEq] at hd
      subst hd; decide
    · intro d hd
      rw [List.getLast?_cons_cons] at hd
      exact hvlastw d hd
  have hdw : List.dropWhile (fun ch => ch = '-' || isPySpace ch) ('-' :: c :: cs)
      = c :: cs := by
    rw [show List.dropWhile (fun ch => ch = '-' || isPySpace ch) ('-' :: c :: cs)
        = List.dropWhile (fun ch => ch = '-' || isPySpace ch) (c :: cs) from by
      simp [List.dropWhile_cons]]
    refine dropWhile_cons_neg ?_
    simp [hcne, hcw]
  have hstrip3 : pyStripChars (c :: cs) = c :: cs := by
    refine pyStripChars_eq_self ?_ ?_
    · intro d hd
      simp only [List.head?_cons, Option.some.injEq] at hd
      subst hd; exact hcw
    · exact hvlastw
  have hrstrip : pyRstripChars (fun ch => (ch = '.' : Bool)) (c :: cs) = c :: cs := by
    refine pyRstripChars_eq_self ?_
    intro d hd
    have hdd := hvlast d hd
    simp only [Bool.or_eq_false_iff] at hdd
    have hdne : d ≠ '.' := by simpa using hdd.1
    exact decide_eq_false hdne
  have hrem1 : pyStrip ⟨List.drop fam.length (fam ++ "-" ++ String.mk (c :: cs)).data⟩
      = String.mk ('-' :: c :: cs) := by
    simp only [pyStrip]
    rw [hdrop, hstrip2]
  have hrem2 : pyStrip ⟨List.dropWhile (fun ch => ch = '-' || isPySpace ch)
        (String.mk ('-' :: c :: cs)).data⟩
      = String.mk (c :: cs) := by
    simp only [pyStrip]
    rw [hdw, hstrip3]
  have hne2 : String.mk (c :: cs) ≠ "" := by
    intro h
    have hcd2 := congrArg String.data h
    simp at hcd2
  refine Prod.ext rfl ?_
  show (if pyStrip ⟨List.dropWhile (fun ch => ch = '-' || isPySpace ch)
        (pyStrip ⟨List.drop fam.length (fam ++ "-" ++ String.mk (c :: cs)).data⟩).data⟩ = ""
      then ""
      else String.mk (pyRstripChars (fun ch => (ch = '.' : Bool))
        (pyStrip ⟨List.dropWhile (fun ch => ch = '-' || isPySpace ch)
          (pyStrip ⟨List.drop fam.length (fam ++ "-" ++ String.mk (c :: cs)).data⟩).data⟩).data))
      = String.mk (c :: cs)
  rw [hrem1, hrem2, if_neg hne2]
  show String.mk (pyRstripChars (fun ch => (ch = '.' : Bool)) (c :: cs)) = String.mk (c :: cs)
  rw [hrstrip]

/-- A bare family name parses to the family with an empty version. -/
lemma split_header_bare (fam : String) (hfam : fam ∈ known_systems) :
    split_header fam = (fam, "") := by
  fin_cases hfam <;> decide

set_option maxRecDepth 4096 in
set_option maxHeartbeats 1000000 in
/-- A non-default display name leaks into the parsed version: a header
rendered from `enabler_name = "VDRX"` parses to family `VDR` with the stray
`X-` glued onto the version, for every clean version. -/
lemma split_header_vdrx (w : String) (hw : cleanVersion w = true) :
    split_header ("VDRX-" ++ w) = ("VDR", "X-" ++ w) := by
  obtain ⟨wd⟩ := w
  simp only [cleanVersion, Bool.and_eq_true] at hw
  obtain ⟨⟨⟨hv1, hv2⟩, hv3⟩, hv4⟩ := hw
  cases wd with
  | nil => simp at hv1
  | cons c cs =>
  have hc' : (!(c == '-' || isPySpace c)) = true := hv2
  simp only [Bool.not_eq_true', Bool.or_eq_false_iff] at hc'
  obtain ⟨hcd, hcw⟩ := hc'
  have hvlast : ∀ d, (c :: cs).getLast? = some d →
      ((d == '.') || isPySpace d) = false := by
    intro d hd
    have h3 := hv3
    rw [hd] at h3
    simpa using h3
  have hvlastw : ∀ d, (c :: cs).getLast? = some d → isPySpace d = false := by
    intro d hd
    have := hvlast d hd
    simp only [Bool.or_eq_false_iff] at this
    exact this.2
  have hHdata : ("VDRX-" ++ String.mk (c :: cs)).data = "VDRX-".data ++ c :: cs := by
    rw [String.data_append]
  have hlastH : ∀ d, ("VDRX-".data ++ c :: cs).getLast? = some d →
      isPySpace d = false := by
    intro d hd
    rw [List.getLast?_append_of_ne_nil _ (List.cons_ne_nil c cs)] at hd
    exact hvlastw d hd
  have hheadH : ∀ d, ("VDRX-".data ++ c :: cs).head? = some d →
      isPySpace d = false := by
    intro d hd
    rw [show ("VDRX-".data ++ c :: cs) = 'V' :: 'D' :: 'R' :: 'X' :: '-' :: c :: cs from rfl]
      at hd
    simp only [List.head?_cons, Option.some.injEq] at hd
    subst hd; decide
  have hstripH : pyStrip ("VDRX-" ++ String.mk (c :: cs))
      = "VDRX-" ++ String.mk (c :: cs) := by
    show String.mk (pyStripChars ("VDRX-" ++ String.mk (c :: cs)).data)
      = "VDRX-" ++ String.mk (c :: cs)
    rw [hHdata, pyStripChars_eq_self hheadH hlastH, ← hHdata]
  have hup : pyUpper ("VDRX-" ++ String.mk (c :: cs))
      = String.mk (("VDRX".data ++ ['-']) ++ (c :: cs).map Char.toUpper) := by
    show String.mk (("VDRX-" ++ String.mk (c :: cs)).data.map Char.toUpper)
      = String.mk (("VDRX".data ++ ['-']) ++ (c :: cs).map Char.toUpper)
    rw [hHdata, List.map_append,
      show "VDRX-".data.map Char.toUpper = "VDRX".data ++ ['-'] from by decide]
  have hfind : known_systems.find?
      (fun sys => pyStartswith
        (String.mk (("VDRX".data ++ ['-']) ++ (c :: cs).map Char.toUpper)) (pyUpper sys))
      = some "VDR" :=
    find?_step (startswith_block_false _ _ _ (by decide) (by decide))
      (find?_step (startswith_block_false _ _ _ (by decide) (by decide))
      (find?_step (startswith_block_false _ _ _ (by decide) (by decide))
      (find?_step (startswith_block_false _ _ _ (by decide) (by decide))
      (find?_step (startswith_block_false _ _ _ (by decide) (by decide))
      (find?_step (startswith_block_false _ _ _ (by decide) (by decide))
      (find?_step (startswith_block_false _ _ _ (by decide) (by decide))
      (find?_step (startswith_block_false _ _ _ (by decide) (by decide))
      (find?_step (startswith_block_false _ _ _ (by decide) (by decide))
      (find?_step (startswith_block_false _ _ _ (by decide) (by decide))
      (find?_step (startswith_block_false _ _ _ (by decide) (by decide))
      (find?_step (startswith_block_false _ _ _ (by decide) (by decide))
      (find?_step (startswith_block_false _ _ _ (by decide) (by decide))
      (find?_step (startswith_block_false _ _ _ (by decide) (by decide))
      (find?_step (startswith_block_false _ _ _ (by decide) (by decide))
      (find?_cons_true (startswith_block_true _ _ _ (by decide)))))))))))))))))
  simp only [split_header]
  simp only [hstripH]
  simp only [hup]
  rw [hfind]
  have hdrop : List.drop ("VDR" : String).length ("VDRX-" ++ String.mk (c :: cs)).data
      = 'X' :: '-' :: c :: cs := by
    rw [hHdata]
    rfl
  have hlastX : ∀ d, ('X' :: '-' :: c :: cs).getLast? = some d →
      isPySpace d = false := by
    intro d hd
    rw [List.getLast?_cons_cons, List.getLast?_cons_cons] at hd
    exact hvlastw d hd
  have hstrip2 : pyStripChars ('X' :: '-' :: c :: cs) = 'X' :: '-' :: c :: cs := by
    refine pyStripChars_eq_self ?_ hlastX
    intro d hd
    simp only [List.head?_cons, Option.some.injEq] at hd
    subst hd; decide
  have hdw : List.dropWhile (fun ch => ch = '-' || isPySpace ch) ('X' :: '-' :: c :: cs)
      = 'X' :: '-' :: c :: cs :=
    dropWhile_cons_neg (by decide)
  have hrstrip : pyRstripChars (fun ch => (ch = '.' : Bool)) ('X' :: '-' :: c :: cs)
      = 'X' :: '-' :: c :: cs := by
    refine pyRstripChars_eq_self ?_
    intro d hd
    rw [List.getLast?_cons_cons, List.getLast?_cons_cons] at hd
    have hdd := hvlast d hd
    simp only [Bool.or_eq_false_iff] at hdd
    have hdne : d ≠ '.' := by simpa using hdd.1
    exact decide_eq_false hdne
  have hrem1 : pyStrip ⟨List.drop ("VDR" : String).length
        ("VDRX-" ++ String.mk (c :: cs)).data⟩
      = String.mk ('X' :: '-' :: c :: cs) := by
    simp only [pyStrip]
    rw [hdrop, hstrip2]
  have hrem2 : pyStrip ⟨List.dropWhile (fun ch => ch = '-' || isPySpace ch)
        (String.mk ('X' :: '-' :: c :: cs)).data⟩
      = String.mk ('X' :: '-' :: c :: cs) := by
    simp only [pyStrip]
    rw [hdw, hstrip2]
  have hne2 : String.mk ('X' :: '-' :: c :: cs) ≠ "" := by
    intro h
    have hcd2 := congrArg String.data h
    simp at hcd2
  refine Prod.ext rfl ?_
  show (if pyStrip ⟨List.dropWhile (fun ch => ch = '-' || isPySpace ch)
        (pyStrip ⟨List.drop ("VDR" : String).length
          ("VDRX-" ++ String.mk (c :: cs)).data⟩).data⟩ = ""
      then ""
      else String.mk (pyRstripChars (fun ch => (ch = '.' : Bool))
        (pyStrip ⟨List.dropWhile (fun ch => ch = '-' || isPySpace ch)
          (pyStrip ⟨List.drop ("VDR" : String).length
            ("VDRX-" ++ String.mk (c :: cs)).data⟩).data⟩).data))
      = "X-" ++ String.mk (c :: cs)
  rw [hrem1, hrem2, if_neg hne2]
  show String.mk (pyRstripChars (fun ch => (ch = '.' : Bool)) ('X' :: '-' :: c :: cs))
    = "X-" ++ String.mk (c :: cs)
  rw [hrstrip]
  rfl

/-- When the header supplied a clean version, the Summary-inference fallback
never fires: `infer_version_from_body` returns it unchanged for any body. -/
lemma infer_version_of_clean (system v body : String) (hv : cleanVersion v = true) :
    infer_version_from_body system v body = v := by
  have h1 : v ≠ "" := by
    intro h; subst h; simp [cleanVersion] at hv
  have h2 : v ≠ "None" := by
    simp only [cleanVersion, Bool.and_eq_true, bne_iff_ne] at hv
    exact hv.2
  unfold infer_version_from_body
  rw [if_pos ⟨h1, h2⟩]

/-! Concrete single-selection round-trip instances, one per header-rendering
variant of the serializer. -/

def apimRecC1 : ApimRec :=
  { system := "APIM", version := "1.2.0", key := "AP-1", summary := "APIM-1.2.0",
    status := "Done", assignee := "Al", issuetype := "Deployment",
    deploy_date := "2026-01-15",
    linked := [{ key := "LNK-1", summary := "fix\nit ", status := "Closed",
                 assignee := "Cara", issuetype := "Bug", created := "2025-12-30" }] }

def apimSelC1 : Selection := { apim_eah := [apimRecC1] }

def docgRecC1 : EnablerRec :=
  { enabler_name := "", enabler_version := "", key := "IOTPF-2", summary := "DOCG nxt",
    status := "Planned", assignee := "", issuetype := "", deploy_date := "", linked := [] }

def docgSelC1 : Selection := { docg := [docgRecC1] }

def reftelRecC1 : EnablerRec :=
  { enabler_name := "REFTEL", enabler_version := "", key := "REF-7", summary := "REFTEL 9",
    status := "Backlog", assignee := "", issuetype := "", deploy_date := "", linked := [] }

def reftelSelC1 : Selection := { reftel := [reftelRecC1] }

def calvaRecC1 : EnablerRec :=
  { enabler_name := "CALVA", enabler_version := "CALVA-2.4.2", key := "CAL-7",
    summary := "CALVA-2.4.2", status := "Done", assignee := "Ana",
    issuetype := "Enabler Version - IOT PF", deploy_date := "2026-01-09", linked := [] }

def calvaSelC1 : Selection := { calva := [calvaRecC1] }

def seringRecC1 : EnablerRec :=
  { enabler_name := "SERING", enabler_version := "6.6", key := "SER-2", summary := "SERING 6.6",
    status := "Open", assignee := "", issuetype := "", deploy_date := "", linked := [] }

def seringSelC1 : Selection := { sering := [seringRecC1] }

def vdpDsRecC1 : EnablerRec :=
  { enabler_name := "x", enabler_version := "4.5.6", key := "VD-1", summary := "VDP_DS 4.5.6",
    status := "Done", assignee := "Fay", issuetype := "", deploy_date := "", linked := [] }

def vdpDsSelC1 : Selection := { vdp_ds := [vdpDsRecC1] }

def vdpStoreRecC1 : EnablerRec :=
  { enabler_name := "x", enabler_version := "3.1", key := "VS-1", summary := "VDP_STORE 3.1",
    status := "Done", assignee := "", issuetype := "", deploy_date := "", linked := [] }

def vdpStore2RecC1 : EnablerRec :=
  { enabler_name := "x", enabler_version := "0.2", key := "VS2-1", summary := "VDP_STORE_2 0.2",
    status := "Done", assignee := "", issuetype := "", deploy_date := "", linked := [] }

def storesSelC1 : Selection :=
  { vdp_store := [vdpStoreRecC1], vdp_store_2 := [vdpStore2RecC1] }

def refser2RecC1 : EnablerRec :=
  { enabler_name := "REFSER2", enabler_version := "REFSER2-1.1", key := "RS2-1",
    summary := "REFSER2-1.1", status := "Done", assignee := "", issuetype := "",
    deploy_date := "", linked := [] }

def refser2SelC1 : Selection := { refser2 := [refser2RecC1] }

def seringPRecC1 : EnablerRec :=
  { enabler_name := "SERING", enabler_version := "SERING-5.5", key := "SER-1",
    summary := "SERING-5.5", status := "Done", assignee := "", issuetype := "",
    deploy_date := "", linked := [] }

def seringPSelC1 : Selection := { sering := [seringPRecC1] }

def vdrRecC1 : EnablerRec :=
  { enabler_name := "VDRX", enabler_version := "1.0", key := "VDR-3",
    summary := "VDR 1.0", status := "Done", assignee := "", issuetype := "",
    deploy_date := "", linked := [] }

def vdrSelC1 : Selection := { vdr := [vdrRecC1] }

/-- Projection of one parsed block used by the round-trip statements. -/
def parsedView (s : Selection) : List (String × String × String × List IssueFields) :=
  (parse_blocks (report_content s)).map
    (fun b => (b.system, b.version, b.enabler_key, extract_issues b.body))

set_option maxRecDepth 8192 in
set_option maxHeartbeats 2000000 in
/-- C1 (counterexample): the round trip does not reproduce the version
verbatim.  A CALVA record carries `enabler_version = "CALVA-2.4.2"`; the
serializer renders that version verbatim as the header name, and
`split_header` hands back system `CALVA` with version `"2.4.2"` — the family
prefix is stripped, so the parsed version differs from the record's.  The
version-inference-from-Summary fallback is not involved: the header carries
a version segment. -/
theorem roundtrip_calva_version_not_reproduced :
    calvaSelC1.calva.map (fun r => r.enabler_version) = ["CALVA-2.4.2"]
    ∧ (parse_blocks (report_content calvaSelC1)).map (fun b => (b.system, b.version))
        = [("CALVA", "2.4.2")]
    ∧ ("2.4.2" : String) ≠ "CALVA-2.4.2" := by
  have hE : enablerSorted ([] : List EnablerRec) = [] := List.mergeSort_of_sorted (by decide)
  have hA0 : apimEahSorted ([] : List ApimRec) = [] := List.mergeSort_of_sorted (by decide)
  have h1 : enablerSorted [calvaRecC1] = [calvaRecC1] := List.mergeSort_of_sorted (by decide)
  refine ⟨by decide, ?_, by decide⟩
  simp only [report_content, out_lines, groupLines, calvaSelC1, h1, hE, hA0]
  decide

set_option maxRecDepth 8192 in
set_option maxHeartbeats 4000000 in
/-- C1 (amended): parsing inverts serialization up to the header version
normalization.  Universally: for every known family and every clean
version, a rendered header name `<family>-<version>` parses back to exactly
that family and version, a bare family name parses to the family with an
empty version, a header-supplied clean version is never overridden by the
Summary-inference fallback, the verbatim CALVA/REFSER2/SERING headers that
embed the family prefix in the version parse back with that prefix
stripped, and a non-default display name (`enabler_name = "VDRX"`) leaks
into the parsed version (`VDR`, `X-<version>`).  Demonstratively: the full
`parse_blocks` plus `extract_issues` round trip of system, enabler key and
all six issue fields is verified end to end on representative single-record
selections of every header-rendering variant (APIM with linked issues, the
DOCG and REFTEL Summary-fallback cases, verbatim CALVA and REFSER2,
prefixed and unprefixed SERING, the trailing-newline VDP_DS header, the
VDP_STORE/VDP_STORE_2 pair, and the VDRX display-name leak). -/
theorem serializer_parser_roundtrip_normalized (fam : String)
    (hfam : fam ∈ known_systems) (v : String) (hv : cleanVersion v = true) :
    split_header (fam ++ "-" ++ v) = (fam, v)
    ∧ split_header fam = (fam, "")
    ∧ (∀ body : String, infer_version_from_body fam v body = v)
    ∧ parsedView apimSelC1
        = [("APIM", "1.2.0", "AP-1",
            [{ summary := "APIM-1.2.0", issue_type := "Deployment", status := "Done",
               owner := "Al", created := "", deploy_date := "2026-01-15" },
             { summary := "fix it", issue_type := "Bug", status := "Closed",
               owner := "Cara", created := "2025-12-30", deploy_date := "" }])]
    ∧ parsedView docgSelC1
        = [("DOCG", "DOCG nxt", "IOTPF-2",
            [{ summary := "DOCG nxt", issue_type := "", status := "Planned",
               owner := "", created := "", deploy_date := "" }])]
    ∧ parsedView reftelSelC1
        = [("REFTEL", "9", "REF-7",
            [{ summary := "REFTEL 9", issue_type := "", status := "Backlog",
               owner := "", created := "", deploy_date := "" }])]
    ∧ parsedView calvaSelC1
        = [("CALVA", "2.4.2", "CAL-7",
            [{ summary := "CALVA-2.4.2", issue_type := "Enabler Version - IOT PF",
               status := "Done", owner := "Ana", created := "",
               deploy_date := "2026-01-09" }])]
    ∧ parsedView seringSelC1
        = [("SERING", "6.6", "SER-2",
            [{ summary := "SERING 6.6", issue_type := "", status := "Open",
               owner := "", created := "", deploy_date := "" }])]
    ∧ parsedView vdpDsSelC1
        = [("VDP_DS", "4.5.6", "VD-1",
            [{ summary := "VDP_DS 4.5.6", issue_type := "", status := "Done",
               owner := "Fay", created := "", deploy_date := "" }])]
    ∧ parsedView storesSelC1
        = [("VDP_STORE", "3.1", "VS-1",
            [{ summary := "VDP_STORE 3.1", issue_type := "", status := "Done",
               owner := "", created := "", deploy_date := "" }]),
           ("VDP_STORE_2", "0.2", "VS2-1",
            [{ summary := "VDP_STORE_2 0.2", issue_type := "", status := "Done",
               owner := "", created := "", deploy_date := "" }])]
    ∧ (∀ w : String, cleanVersion w = true →
        split_header ("CALVA" ++ "-" ++ w) = ("CALVA", w)
        ∧ split_header ("REFSER2" ++ "-" ++ w) = ("REFSER2", w)
        ∧ split_header ("SERING" ++ "-" ++ w) = ("SERING", w)
        ∧ split_header ("VDRX-" ++ w) = ("VDR", "X-" ++ w))
    ∧ refser2SelC1.refser2.map (fun r => r.enabler_version) = ["REFSER2-1.1"]
    ∧ parsedView refser2SelC1
        = [("REFSER2", "1.1", "RS2-1",
            [{ summary := "REFSER2-1.1", issue_type := "", status := "Done",
               owner := "", created := "", deploy_date := "" }])]
    ∧ seringPSelC1.sering.map (fun r => r.enabler_version) = ["SERING-5.5"]
    ∧ parsedView seringPSelC1
        = [("SERING", "5.5", "SER-1",
            [{ summary := "SERING-5.5", issue_type := "", status := "Done",
               owner := "", created := "", deploy_date := "" }])]
    ∧ vdrSelC1.vdr.map (fun r => (r.enabler_name, r.enabler_version)) = [("VDRX", "1.0")]
    ∧ parsedView vdrSelC1
        = [("VDR", "X-1.0", "VDR-3",
            [{ summary := "VDR 1.0", issue_type := "", status := "Done",
               owner := "", created := "", deploy_date := "" }])] := by
  have hE : enablerSorted ([] : List EnablerRec) = [] := List.mergeSort_of_sorted (by decide)
  have hA0 : apimEahSorted ([] : List ApimRec) = [] := List.mergeSort_of_sorted (by decide)
  refine ⟨split_header_prefixed fam hfam v hv, split_header_bare fam hfam,
    fun body => infer_version_of_clean fam v body hv, ?_, ?_, ?_, ?_, ?_, ?_, ?_,
    fun w hw => ⟨split_header_prefixed "CALVA" (by decide) w hw,
      split_header_prefixed "REFSER2" (by decide) w hw,
      split_header_prefixed "SERING" (by decide) w hw,
      split_header_vdrx w hw⟩,
    by decide, ?_, by decide, ?_, by decide, ?_⟩
  · have h1 : apimEahSorted [apimRecC1] = [apimRecC1] := List.mergeSort_of_sorted (by decide)
    simp only [parsedView, report_content, out_lines, groupLines, apimSelC1, h1, hE, hA0]
    decide
  · have h1 : enablerSorted [docgRecC1] = [docgRecC1] := List.mergeSort_of_sorted (by decide)
    simp only [parsedView, report_content, out_lines, groupLines, docgSelC1, h1, hE, hA0]
    decide
  · have h1 : enablerSorted [reftelRecC1] = [reftelRecC1] := List.mergeSort_of_sorted (by decide)
    simp only [parsedView, report_content, out_lines, groupLines, reftelSelC1, h1, hE, hA0]
    decide
  · have h1 : enablerSorted [calvaRecC1] = [calvaRecC1] := List.mergeSort_of_sorted (by decide)
    simp only [parsedView, report_content, out_lines, groupLines, calvaSelC1, h1, hE, hA0]
    decide
  · have h1 : enablerSorted [seringRecC1] = [seringRecC1] := List.mergeSort_of_sorted (by decide)
    simp only [parsedView, report_content, out_lines, groupLines, seringSelC1, h1, hE, hA0]
    decide
  · have h1 : enablerSorted [vdpDsRecC1] = [vdpDsRecC1] := List.mergeSort_of_sorted (by decide)
    simp only [parsedView, report_content, out_lines, groupLines, vdpDsSelC1, h1, hE, hA0]
    decide
  · have h1 : enablerSorted [vdpStoreRecC1] = [vdpStoreRecC1] :=
      List.mergeSort_of_sorted (by decide)
    have h2 : enablerSorted [vdpStore2RecC1] = [vdpStore2RecC1] :=
      List.mergeSort_of_sorted (by decide)
    simp only [parsedView, report_content, out_lines, groupLines, storesSelC1, h1, h2, hE, hA0]
    decide
  · have h1 : enablerSorted [refser2RecC1] = [refser2RecC1] :=
      List.mergeSort_of_sorted (by decide)
    simp only [parsedView, report_content, out_lines, groupLines, refser2SelC1, h1, hE, hA0]
    decide
  · have h1 : enablerSorted [seringPRecC1] = [seringPRecC1] :=
      List.mergeSort_of_sorted (by decide)
    simp only [parsedView, report_content, out_lines, groupLines, seringPSelC1, h1, hE, hA0]
    decide
  · have h1 : enablerSorted [vdrRecC1] = [vdrRecC1] :=
      List.mergeSort_of_sorted (by decide)
    simp only [parsedView, report_content, out_lines, groupLines, vdrSelC1, h1, hE, hA0]
    decide

/-- Witness for C1's amended theorem at the family `VDP_DS` and the clean
version `4.5.6`. -/
theorem serializer_parser_roundtrip_normalized_witness :
    split_header ("VDP_DS" ++ "-" ++ "4.5.6") = ("VDP_DS", "4.5.6")
    ∧ split_header "VDP_DS" = ("VDP_DS", "") :=
  ⟨(serializer_parser_roundtrip_normalized "VDP_DS" (by decide) "4.5.6" (by decide)).1,
   (serializer_parser_roundtrip_normalized "VDP_DS" (by decide) "4.5.6" (by decide)).2.1⟩

end SSDP
